import Mathlib

/-!
Verification of the go-indexer-solana-starter repository.

This file embeds, in Lean, the parts of the Go source that the checked
claims are about: the Mongo repository's index creation and event saving
(internal/repository/mongo.go), the Solana RPC client's signature paging
(pkg/solana/client.go), the Anchor event decoder with its SHA-256 based
discriminators (internal/decoder, src/unnamed/part_001), the counter log
parser (src/unnamed/part_002), and the event processor dispatch
(src/unnamed/part_003).  Machine integers are modelled as Nat with
explicit reduction modulo 2^w where the Go code computes in uintN.
-/

namespace SolanaIndexer

/-! ## SHA-256, on byte lists, as pure Nat arithmetic modulo 2^32 -/

/-- 2^32, the modulus of 32-bit word arithmetic. -/
def M32 : Nat := 4294967296

/-- Right rotation of a 32-bit word (input assumed < 2^32). -/
def rotr (n x : Nat) : Nat := (x >>> n) ||| ((x % (2 ^ n)) <<< (32 - n))

/-- SHA-256 small sigma 0. -/
def ssig0 (x : Nat) : Nat := (rotr 7 x) ^^^ (rotr 18 x) ^^^ (x >>> 3)

/-- SHA-256 small sigma 1. -/
def ssig1 (x : Nat) : Nat := (rotr 17 x) ^^^ (rotr 19 x) ^^^ (x >>> 10)

/-- SHA-256 big sigma 0. -/
def bsig0 (x : Nat) : Nat := (rotr 2 x) ^^^ (rotr 13 x) ^^^ (rotr 22 x)

/-- SHA-256 big sigma 1. -/
def bsig1 (x : Nat) : Nat := (rotr 6 x) ^^^ (rotr 11 x) ^^^ (rotr 25 x)

/-- SHA-256 choice function (bitwise, 32-bit complement). -/
def chNat (x y z : Nat) : Nat := (x &&& y) ^^^ ((x ^^^ 4294967295) &&& z)

/-- SHA-256 majority function. -/
def majNat (x y z : Nat) : Nat := (x &&& y) ^^^ (x &&& z) ^^^ (y &&& z)

/-- The 64 SHA-256 round constants of FIPS 180-4, in decimal. -/
def K256 : List Nat :=
  [1116352408, 1899447441, 3049323471, 3921009573, 961987163,
   1508970993, 2453635748, 2870763221, 3624381080, 310598401,
   607225278, 1426881987, 1925078388, 2162078206, 2614888103,
   3248222580, 3835390401, 4022224774, 264347078, 604807628,
   770255983, 1249150122, 1555081692, 1996064986, 2554220882,
   2821834349, 2952996808, 3210313671, 3336571891, 3584528711,
   113926993, 338241895, 666307205, 773529912, 1294757372,
   1396182291, 1695183700, 1986661051, 2177026350, 2456956037,
   2730485921, 2820302411, 3259730800, 3345764771, 3516065817,
   3600352804, 4094571909, 275423344, 430227734, 506948616,
   659060556, 883997877, 958139571, 1322822218, 1537002063,
   1747873779, 1955562222, 2024104815, 2227730452, 2361852424,
   2428436474, 2756734187, 3204031479, 3329325298]

/-- The eight 32-bit words of SHA-256 working state. -/
structure S8 where
  a : Nat
  b : Nat
  c : Nat
  d : Nat
  e : Nat
  f : Nat
  g : Nat
  hh : Nat
deriving Repr, DecidableEq

/-- The SHA-256 initial hash value of FIPS 180-4, in decimal. -/
def H0s8 : S8 :=
  ⟨1779033703, 3144134277, 1013904242, 2773480762,
   1359893119, 2600822924, 528734635, 1541459225⟩

/-- Extend the 16-word message block by the remaining schedule words,
carrying a sliding 16-word window so evaluation stays linear. -/
def schedRest : Nat → List Nat → List Nat
  | 0, _ => []
  | fuel + 1, w =>
    let next := (ssig1 (w.getD 14 0) + w.getD 9 0 + ssig0 (w.getD 1 0) + w.getD 0 0) % M32
    next :: schedRest fuel (w.drop 1 ++ [next])

/-- The full 64-word SHA-256 message schedule of one block. -/
def sha256schedule (block : List Nat) : List Nat := block ++ schedRest 48 block

/-- One SHA-256 compression round. -/
def roundStep (st : S8) (kw : Nat × Nat) : S8 :=
  let t1 := (st.hh + bsig1 st.e + chNat st.e st.f st.g + kw.1 + kw.2) % M32
  let t2 := (bsig0 st.a + majNat st.a st.b st.c) % M32
  ⟨(t1 + t2) % M32, st.a, st.b, st.c, (st.d + t1) % M32, st.e, st.f, st.g⟩

/-- Compress one 16-word block into the running hash value. -/
def compressBlock (hv : S8) (block : List Nat) : S8 :=
  let w := sha256schedule block
  let st := (K256.zip w).foldl roundStep hv
  ⟨(hv.a + st.a) % M32, (hv.b + st.b) % M32, (hv.c + st.c) % M32, (hv.d + st.d) % M32,
   (hv.e + st.e) % M32, (hv.f + st.f) % M32, (hv.g + st.g) % M32, (hv.hh + st.hh) % M32⟩

/-- The hash state as a list of eight words. -/
def S8.words (s : S8) : List Nat := [s.a, s.b, s.c, s.d, s.e, s.f, s.g, s.hh]

/-- Big-endian bytes of a 64-bit length field. -/
def be64 (n : Nat) : List Nat :=
  [(n >>> 56) % 256, (n >>> 48) % 256, (n >>> 40) % 256, (n >>> 32) % 256,
   (n >>> 24) % 256, (n >>> 16) % 256, (n >>> 8) % 256, n % 256]

/-- Big-endian bytes of a 32-bit word. -/
def be32 (w : Nat) : List Nat := [(w >>> 24) % 256, (w >>> 16) % 256, (w >>> 8) % 256, w % 256]

/-- SHA-256 padding: append 0x80, zeros to 56 mod 64, then the bit length. -/
def padMessage (m : List Nat) : List Nat :=
  let padlen := (64 + 56 - (m.length + 1) % 64) % 64
  m ++ 128 :: (List.replicate padlen 0 ++ be64 (8 * m.length))

/-- Group bytes into big-endian 32-bit words. -/
def toWordsBE : List Nat → List Nat
  | b0 :: b1 :: b2 :: b3 :: rest => ((b0 <<< 24) + (b1 <<< 16) + (b2 <<< 8) + b3) :: toWordsBE rest
  | _ => []

/-- Split a word list into 16-word blocks (fuel-driven recursion). -/
def chunk16 : Nat → List Nat → List (List Nat)
  | 0, _ => []
  | _, [] => []
  | fuel + 1, l => l.take 16 :: chunk16 fuel (l.drop 16)

/-- SHA-256 of a byte list, as the 32 digest bytes. -/
def sha256 (msg : List Nat) : List Nat :=
  let words := toWordsBE (padMessage msg)
  let blocks := chunk16 (words.length + 1) words
  ((blocks.foldl compressBlock H0s8).words).foldr (fun w acc => be32 w ++ acc) []

/-! ## Standard base64 encoding (encoding/base64 StdEncoding) -/

/-- The standard base64 alphabet. -/
def b64Alphabet : List Char :=
  "ABCDEFGHIJKLMNOPQRSTUVWXYZabcdefghijklmnopqrstuvwxyz0123456789+/".data

/-- Character at an index of the base64 alphabet. -/
def b64Char (i : Nat) : Char := b64Alphabet.getD i 'A'

/-- Standard base64 encoding of a byte list, with `=` padding. -/
def base64Encode : List Nat → String
  | [] => ""
  | [a] => String.mk [b64Char (a >>> 2), b64Char ((a % 4) <<< 4), '=', '=']
  | [a, b] => String.mk [b64Char (a >>> 2), b64Char (((a % 4) <<< 4) + (b >>> 4)),
                         b64Char ((b % 16) <<< 2), '=']
  | a :: b :: c :: rest =>
    String.mk [b64Char (a >>> 2), b64Char (((a % 4) <<< 4) + (b >>> 4)),
               b64Char (((b % 16) <<< 2) + (c >>> 6)), b64Char (c % 64)] ++ base64Encode rest

/-- The bytes of an ASCII string (Go `[]byte(s)` for ASCII content). -/
def strBytes (s : String) : List Nat := s.data.map Char.toNat

/-! ## Event discriminators (internal/decoder, `eventDiscriminator`) -/

/-- `eventDiscriminator` from the decoder: base64 of the first 8 bytes of
SHA-256 of `"event:" ++ name`. -/
def eventDiscriminator (name : String) : String :=
  base64Encode ((sha256 (strBytes ("event:" ++ name))).take 8)

/-- The raw 8 discriminator bytes of an event name. -/
def discriminatorBytes (name : String) : List Nat :=
  (sha256 (strBytes ("event:" ++ name))).take 8

/-- The 20 known Anchor event type names, in the order of
`makeDiscriminatorMap` in the source. -/
def knownEventNames : List String :=
  ["TokensMintedEvent", "TokensTransferredEvent", "TokensBurnedEvent",
   "DelegateApprovedEvent", "DelegateRevokedEvent", "TokenAccountClosedEvent",
   "TokenAccountFrozenEvent", "TokenAccountThawedEvent", "UserAccountCreatedEvent",
   "UserAccountUpdatedEvent", "UserAccountClosedEvent", "ConfigUpdatedEvent",
   "ProgramPausedEvent", "NftCollectionCreatedEvent", "NftMintedEvent",
   "NftListedEvent", "NftSoldEvent", "NftListingCancelledEvent",
   "NftOfferCreatedEvent", "NftOfferAcceptedEvent"]

/-- `makeDiscriminatorMap`: base64 discriminator string to event type
(each `models.EventTypeX` constant holds the event name string itself). -/
def makeDiscriminatorMap : List (String × String) :=
  [(eventDiscriminator "TokensMintedEvent", "TokensMintedEvent"),
   (eventDiscriminator "TokensTransferredEvent", "TokensTransferredEvent"),
   (eventDiscriminator "TokensBurnedEvent", "TokensBurnedEvent"),
   (eventDiscriminator "DelegateApprovedEvent", "DelegateApprovedEvent"),
   (eventDiscriminator "DelegateRevokedEvent", "DelegateRevokedEvent"),
   (eventDiscriminator "TokenAccountClosedEvent", "TokenAccountClosedEvent"),
   (eventDiscriminator "TokenAccountFrozenEvent", "TokenAccountFrozenEvent"),
   (eventDiscriminator "TokenAccountThawedEvent", "TokenAccountThawedEvent"),
   (eventDiscriminator "UserAccountCreatedEvent", "UserAccountCreatedEvent"),
   (eventDiscriminator "UserAccountUpdatedEvent", "UserAccountUpdatedEvent"),
   (eventDiscriminator "UserAccountClosedEvent", "UserAccountClosedEvent"),
   (eventDiscriminator "ConfigUpdatedEvent", "ConfigUpdatedEvent"),
   (eventDiscriminator "ProgramPausedEvent", "ProgramPausedEvent"),
   (eventDiscriminator "NftCollectionCreatedEvent", "NftCollectionCreatedEvent"),
   (eventDiscriminator "NftMintedEvent", "NftMintedEvent"),
   (eventDiscriminator "NftListedEvent", "NftListedEvent"),
   (eventDiscriminator "NftSoldEvent", "NftSoldEvent"),
   (eventDiscriminator "NftListingCancelledEvent", "NftListingCancelledEvent"),
   (eventDiscriminator "NftOfferCreatedEvent", "NftOfferCreatedEvent"),
   (eventDiscriminator "NftOfferAcceptedEvent", "NftOfferAcceptedEvent")]

/-! ## Mongo repository (internal/repository/mongo.go) -/

/-- One element of the `[]mongo.IndexModel` slice: the key document and
whether `SetUnique(true)` was applied. -/
structure IndexModel where
  keys : List (String × Int)
  unique : Bool
deriving DecidableEq, Repr

/-- `CreateIndexes`: the four index models passed to
`collection.Indexes().CreateMany`. -/
def createIndexModels : List IndexModel :=
  [{ keys := [("signature", 1)], unique := true },
   { keys := [("event_type", 1)], unique := false },
   { keys := [("block_time", -1)], unique := false },
   { keys := [("slot", -1)], unique := false }]

/-- The envelope keys of a persisted event document (`models.BaseEvent`
has no ordinal field; only these identify a record for the indexes). -/
structure StoredRecord where
  signature : String
  eventType : String
  slot : Nat
deriving DecidableEq, Repr

/-- The constraint the unique index on `signature` enforces on the
`events` collection: no two documents share a signature. -/
def signatureUnique (recs : List StoredRecord) : Prop :=
  recs.Pairwise (fun r s => r.signature ≠ s.signature)

/-- The error of a failed `InsertOne`: a duplicate-key violation or any
other server error. -/
inductive MongoError where
  | duplicateKey
  | other (msg : String)
deriving DecidableEq, Repr

/-- The error string of a Mongo error. -/
def mongoErrMsg : MongoError → String
  | .duplicateKey => "duplicate key error"
  | .other m => m

/-- `SaveEvent`: wraps any error of `collection.InsertOne` as
`insert event: …` and returns it; returns nil only on success. -/
def saveEvent (insertResult : Except MongoError Unit) : Option String :=
  match insertResult with
  | .ok _ => none
  | .error e => some ("insert event: " ++ mongoErrMsg e)

/-! ## Solana RPC client (pkg/solana/client.go) -/

/-- `rpc.GetSignaturesForAddressOpts`: limit and the before/until bounds. -/
structure SigOpts where
  limit : Option Int
  beforeSig : Option String
  untilSig : Option String
deriving DecidableEq, Repr

/-- The request issued to the RPC: the address and the options attached
to the call, if any. -/
structure SigRequest where
  address : String
  opts : Option SigOpts
deriving DecidableEq, Repr

/-- Lines 51–59 of client.go: the options value the method constructs. -/
def buildSigOpts (limit : Int) (before untilSig : Option String) : SigOpts :=
  { limit := some limit, beforeSig := before, untilSig := untilSig }

/-- `GetSignaturesForAddress` then calls
`c.rpc.GetSignaturesForAddress(ctx, address)` — the plain variant, not
`...WithOpts` — so the issued request carries none of the options just
built. -/
def getSignaturesForAddressRequest (address : String) (limit : Int)
    (before untilSig : Option String) : SigRequest :=
  let _opts := buildSigOpts limit before untilSig
  { address := address, opts := none }

/-! ## Event processor dispatch (internal/processor, src/unnamed/part_003) -/

/-- The 13 event types with a case in the `ProcessEvent` switch. -/
def handledEventTypes : List String :=
  ["TokensMintedEvent", "TokensTransferredEvent", "TokensBurnedEvent",
   "UserAccountCreatedEvent", "UserAccountUpdatedEvent", "ConfigUpdatedEvent",
   "NftMintedEvent", "CounterInitializedEvent", "CounterIncrementedEvent",
   "CounterDecrementedEvent", "CounterAddedEvent", "CounterResetEvent",
   "CounterPaymentReceivedEvent"]

/-- What `ProcessEvent` does with an event: save it through the
repository, panic on a failed type assertion, or (default branch) log
the unknown type and return nil without any store write. -/
inductive ProcessOutcome where
  | saved (eventType : String)
  | typeAssertPanic
  | droppedNil
deriving DecidableEq, Repr

/-- A `processX` helper: `data.(models.X)` panics unless the payload's
dynamic type (modelled by its tag string) is X, then the event is saved. -/
def assertAndSave (eventType payloadTag : String) : ProcessOutcome :=
  if payloadTag = eventType then .saved eventType else .typeAssertPanic

/-- The `ProcessEvent` switch on `eventType`, with its 13 cases and the
default branch that logs and returns nil. -/
def processEvent (eventType payloadTag : String) : ProcessOutcome :=
  if eventType = "TokensMintedEvent" then assertAndSave "TokensMintedEvent" payloadTag
  else if eventType = "TokensTransferredEvent" then assertAndSave "TokensTransferredEvent" payloadTag
  else if eventType = "TokensBurnedEvent" then assertAndSave "TokensBurnedEvent" payloadTag
  else if eventType = "UserAccountCreatedEvent" then assertAndSave "UserAccountCreatedEvent" payloadTag
  else if eventType = "UserAccountUpdatedEvent" then assertAndSave "UserAccountUpdatedEvent" payloadTag
  else if eventType = "ConfigUpdatedEvent" then assertAndSave "ConfigUpdatedEvent" payloadTag
  else if eventType = "NftMintedEvent" then assertAndSave "NftMintedEvent" payloadTag
  else if eventType = "CounterInitializedEvent" then assertAndSave "CounterInitializedEvent" payloadTag
  else if eventType = "CounterIncrementedEvent" then assertAndSave "CounterIncrementedEvent" payloadTag
  else if eventType = "CounterDecrementedEvent" then assertAndSave "CounterDecrementedEvent" payloadTag
  else if eventType = "CounterAddedEvent" then assertAndSave "CounterAddedEvent" payloadTag
  else if eventType = "CounterResetEvent" then assertAndSave "CounterResetEvent" payloadTag
  else if eventType = "CounterPaymentReceivedEvent" then assertAndSave "CounterPaymentReceivedEvent" payloadTag
  else .droppedNil

/-! ## Binary event decoder (internal/decoder, `DecodeEvent`) -/

/-- A byte sequence. -/
abbrev Bytes := List Nat

/-- Read exactly `n` bytes, returning them and the rest. -/
def readBytes (n : Nat) (b : Bytes) : Option (Bytes × Bytes) :=
  if n ≤ b.length then some (b.take n, b.drop n) else none

/-- Little-endian value of a byte sequence (first byte least significant). -/
def leVal (bs : Bytes) : Nat := bs.foldr (fun byte acc => byte + 256 * acc) 0

/-- Decode an unsigned little-endian 64-bit integer. -/
def readU64 (b : Bytes) : Option (Nat × Bytes) :=
  (readBytes 8 b).map (fun p => (leVal p.1, p.2))

/-- Decode an unsigned little-endian 32-bit integer. -/
def readU32 (b : Bytes) : Option (Nat × Bytes) :=
  (readBytes 4 b).map (fun p => (leVal p.1, p.2))

/-- Two's-complement reading of a 64-bit value. -/
def toI64 (n : Nat) : Int := if n < 2 ^ 63 then (n : Int) else (n : Int) - 2 ^ 64

/-- Decode a signed little-endian 64-bit integer. -/
def readI64 (b : Bytes) : Option (Int × Bytes) :=
  (readBytes 8 b).map (fun p => (toI64 (leVal p.1), p.2))

/-- Decode a 32-byte public key. -/
def readPubKeyBytes (b : Bytes) : Option (Bytes × Bytes) := readBytes 32 b

/-- The typed event values produced by the seven implemented decoders:
the payload fields of the corresponding `models` structs. -/
inductive DecodedEvent where
  | tokensMinted (mint recipient : Bytes) (amount : Nat) (timestamp : Int)
  | tokensTransferred (mint fromAcct toAcct : Bytes) (amount : Nat) (timestamp : Int)
  | tokensBurned (mint owner : Bytes) (amount : Nat) (timestamp : Int)
  | userAccountCreated (user authority : Bytes) (timestamp : Int)
  | userAccountUpdated (user : Bytes) (oldPoints newPoints : Nat) (timestamp : Int)
  | configUpdated (admin : Bytes) (oldFee newFee : Nat) (timestamp : Int)
  | nftMinted (nftMint collection owner nameBytes uriBytes : Bytes) (timestamp : Int)
deriving DecidableEq, Repr

/-- `decodeTokensMinted`: mint, recipient, amount, timestamp. -/
def decodeTokensMinted (b : Bytes) : Option DecodedEvent := do
  let (mint, b) ← readPubKeyBytes b
  let (recipient, b) ← readPubKeyBytes b
  let (amount, b) ← readU64 b
  let (timestamp, _) ← readI64 b
  pure (.tokensMinted mint recipient amount timestamp)

/-- `decodeTokensTransferred`: mint, from, to, amount, timestamp. -/
def decodeTokensTransferred (b : Bytes) : Option DecodedEvent := do
  let (mint, b) ← readPubKeyBytes b
  let (fromAcct, b) ← readPubKeyBytes b
  let (toAcct, b) ← readPubKeyBytes b
  let (amount, b) ← readU64 b
  let (timestamp, _) ← readI64 b
  pure (.tokensTransferred mint fromAcct toAcct amount timestamp)

/-- `decodeTokensBurned`: mint, owner, amount, timestamp. -/
def decodeTokensBurned (b : Bytes) : Option DecodedEvent := do
  let (mint, b) ← readPubKeyBytes b
  let (owner, b) ← readPubKeyBytes b
  let (amount, b) ← readU64 b
  let (timestamp, _) ← readI64 b
  pure (.tokensBurned mint owner amount timestamp)

/-- `decodeUserAccountCreated`: user, authority, timestamp. -/
def decodeUserAccountCreated (b : Bytes) : Option DecodedEvent := do
  let (user, b) ← readPubKeyBytes b
  let (authority, b) ← readPubKeyBytes b
  let (timestamp, _) ← readI64 b
  pure (.userAccountCreated user authority timestamp)

/-- `decodeUserAccountUpdated`: user, old points, new points, timestamp. -/
def decodeUserAccountUpdated (b : Bytes) : Option DecodedEvent := do
  let (user, b) ← readPubKeyBytes b
  let (oldPoints, b) ← readU64 b
  let (newPoints, b) ← readU64 b
  let (timestamp, _) ← readI64 b
  pure (.userAccountUpdated user oldPoints newPoints timestamp)

/-- `decodeConfigUpdated`: admin, old fee, new fee, timestamp. -/
def decodeConfigUpdated (b : Bytes) : Option DecodedEvent := do
  let (admin, b) ← readPubKeyBytes b
  let (oldFee, b) ← readU64 b
  let (newFee, b) ← readU64 b
  let (timestamp, _) ← readI64 b
  pure (.configUpdated admin oldFee newFee timestamp)

/-- `decodeNftMinted`: three keys, u32-length-prefixed name and uri
byte strings, timestamp. -/
def decodeNftMinted (b : Bytes) : Option DecodedEvent := do
  let (nftMint, b) ← readPubKeyBytes b
  let (collection, b) ← readPubKeyBytes b
  let (owner, b) ← readPubKeyBytes b
  let (nameLen, b) ← readU32 b
  let (nameBytes, b) ← readBytes nameLen b
  let (uriLen, b) ← readU32 b
  let (uriBytes, b) ← readBytes uriLen b
  let (timestamp, _) ← readI64 b
  pure (.nftMinted nftMint collection owner nameBytes uriBytes timestamp)

/-- The typed decoder of the `DecodeEvent` switch case for an event type,
when one exists; the default case has none. -/
def dispatchDecoder (eventType : String) : Option (Bytes → Option DecodedEvent) :=
  match eventType with
  | "TokensMintedEvent" => some decodeTokensMinted
  | "TokensTransferredEvent" => some decodeTokensTransferred
  | "TokensBurnedEvent" => some decodeTokensBurned
  | "UserAccountCreatedEvent" => some decodeUserAccountCreated
  | "UserAccountUpdatedEvent" => some decodeUserAccountUpdated
  | "ConfigUpdatedEvent" => some decodeConfigUpdated
  | "NftMintedEvent" => some decodeNftMinted
  | _ => none

/-- The seven event types with an implemented decoder in `DecodeEvent`. -/
def implementedEventNames : List String :=
  ["TokensMintedEvent", "TokensTransferredEvent", "TokensBurnedEvent",
   "UserAccountCreatedEvent", "UserAccountUpdatedEvent", "ConfigUpdatedEvent",
   "NftMintedEvent"]

/-- The 13 known event types whose `DecodeEvent` dispatch falls to the
default branch, `decoder not implemented`. -/
def notImplementedEventNames : List String :=
  ["DelegateApprovedEvent", "DelegateRevokedEvent", "TokenAccountClosedEvent",
   "TokenAccountFrozenEvent", "TokenAccountThawedEvent", "UserAccountClosedEvent",
   "ProgramPausedEvent", "NftCollectionCreatedEvent", "NftListedEvent",
   "NftSoldEvent", "NftListingCancelledEvent", "NftOfferCreatedEvent",
   "NftOfferAcceptedEvent"]

/-- The outcome of `DecodeEvent` in Go terms: the error paths (too-short
data, unknown discriminator, unimplemented decoder, payload decode
failure), or the event type with its typed event value. -/
inductive DecodeResult where
  | tooShort
  | unknownDisc (disc : String)
  | notImplemented (eventType : String)
  | malformed (eventType : String)
  | ok (eventType : String) (event : DecodedEvent)
deriving DecidableEq, Repr

/-- `DecodeEvent`: reject frames shorter than 8 bytes, look up the
base64 of the first 8 bytes in the discriminator map, then dispatch the
payload to the typed decoder of the event type. -/
def decodeEvent (data : Bytes) : DecodeResult :=
  if data.length < 8 then .tooShort
  else
    let disc := base64Encode (data.take 8)
    match makeDiscriminatorMap.lookup disc with
    | none => .unknownDisc disc
    | some eventType =>
      match dispatchDecoder eventType with
      | none => .notImplemented eventType
      | some dec =>
        match dec (data.drop 8) with
        | some e => .ok eventType e
        | none => .malformed eventType

/-! ## Counter log parser (internal/decoder, src/unnamed/part_002)

Go strings are modelled as `List Char`; the library functions the parser
uses (`strings.Contains`, `strings.Split`, `strings.TrimSpace`,
`strings.HasPrefix`, `strings.TrimPrefix`, `strconv.ParseUint`, and the
two `regexp` patterns) are embedded below on char lists. -/

/-- A 32-byte public key, as bytes; the Go zero value is 32 zero bytes. -/
abbrev PubKey := List Nat

/-- The zero `solana.PublicKey`. -/
def zeroPubKey : PubKey := List.replicate 32 0

/-- Whitespace for `strings.TrimSpace` (ASCII content). -/
def isSp (c : Char) : Bool := (c == ' ') || (c == '\t') || (c == '\n') || (c == '\r')

/-- Match a literal prefix, returning the rest on success
(`strings.HasPrefix` / the literal part of a pattern). -/
def matchLit : List Char → List Char → Option (List Char)
  | [], l => some l
  | _ :: _, [] => none
  | p :: ps, c :: cs => if c = p then matchLit ps cs else none

/-- `strings.HasPrefix`. -/
def hasPre (p l : List Char) : Bool := (matchLit p l).isSome

/-- First occurrence of `sep` in a list: the part before it and the part
after it. -/
def findOcc (sep : List Char) : List Char → Option (List Char × List Char)
  | [] => match matchLit sep [] with
          | some r => some ([], r)
          | none => none
  | c :: rest =>
    match matchLit sep (c :: rest) with
    | some r => some ([], r)
    | none => (findOcc sep rest).map (fun p => (c :: p.1, p.2))

/-- `strings.Contains`. -/
def containsSeq (sep l : List Char) : Bool := (findOcc sep l).isSome

/-- `strings.Split`, fuel-driven: cut at each leftmost occurrence. -/
def splitSeqF (sep : List Char) : Nat → List Char → List (List Char)
  | 0, l => [l]
  | fuel + 1, l =>
    match findOcc sep l with
    | none => [l]
    | some (bef, aft) => bef :: splitSeqF sep fuel aft

/-- `strings.Split` with enough fuel for any input. -/
def splitSeq (sep l : List Char) : List (List Char) := splitSeqF sep (l.length + 1) l

/-- `strings.TrimSpace`. -/
def trimChars (l : List Char) : List Char :=
  ((l.dropWhile isSp).reverse.dropWhile isSp).reverse

/-- Decimal value of a digit list. -/
def digitsVal (l : List Char) : Nat := l.foldl (fun a c => 10 * a + (c.toNat - 48)) 0

/-- 2^64, the modulus of Go uint64 arithmetic. -/
def U64 : Nat := 18446744073709551616

/-- `strconv.ParseUint(s, 10, 64)`: digits only, error on empty input,
stray characters, or a value not representable in 64 bits. -/
def parseUint64 (l : List Char) : Option Nat :=
  if l.isEmpty then none
  else if l.all Char.isDigit then
    if digitsVal l < U64 then some (digitsVal l) else none
  else none

/-- The value `strconv.ParseUint` returns on an all-digit input when its
error is discarded (`v, _ :=`): the value, or MaxUint64 on range error. -/
def parseUintWrap (l : List Char) : Nat :=
  if digitsVal l < U64 then digitsVal l else U64 - 1

/-- Go uint64 subtraction (wrapping), for operands below 2^64. -/
def u64sub (a b : Nat) : Nat := (U64 + a - b) % U64

/-- Go uint64 addition (wrapping). -/
def u64add (a b : Nat) : Nat := (a + b) % U64

/-- `extractNumber`: TrimPrefix, TrimSpace, ParseUint; nil on error. -/
def extractNumber (msg pre : List Char) : Option Nat :=
  let stripped := match matchLit pre msg with
    | some r => r
    | none => msg
  parseUint64 (trimChars stripped)

/-- The maximal digit run at the head of a list (`\d+`, greedy). -/
def takeDigits (l : List Char) : List Char := l.takeWhile Char.isDigit

/-- What follows the maximal digit run. -/
def dropDigits (l : List Char) : List Char := l.dropWhile Char.isDigit

/-- Match `lit1 (\d+) lit2 (\d+)` at the start of `cs`.  Both uses have a
non-digit right after the first group, and the second group ends the
pattern, so the greedy `\d+` is the maximal digit run. -/
def tryTwoNumAt (lit1 lit2 cs : List Char) : Option (List Char × List Char) :=
  match matchLit lit1 cs with
  | none => none
  | some r1 =>
    let d1 := takeDigits r1
    if d1.isEmpty then none
    else match matchLit lit2 (dropDigits r1) with
      | none => none
      | some r3 =>
        let d2 := takeDigits r3
        if d2.isEmpty then none else some (d1, d2)

/-- `regexp.FindStringSubmatch` for `lit1(\d+)lit2(\d+)`: the captures of
the leftmost match. -/
def findTwoNum (lit1 lit2 : List Char) : List Char → Option (List Char × List Char)
  | [] => tryTwoNumAt lit1 lit2 []
  | c :: rest =>
    match tryTwoNumAt lit1 lit2 (c :: rest) with
    | some r => some r
    | none => findTwoNum lit1 lit2 rest

/-- The `CounterAction` struct of the parser. -/
structure CounterAction where
  actionType : String
  counter : PubKey
  authority : Option PubKey := none
  oldValue : Option Nat := none
  newValue : Option Nat := none
  addedValue : Option Nat := none
  payer : Option PubKey := none
  feeCollector : Option PubKey := none
  payment : Option Nat := none
deriving DecidableEq, Repr

/-- The log-message prefix the parser splits on. -/
def msgLogPre : List Char := "Program log: ".data

/-- The `Counter incremented to: ` prefix. -/
def incrPre : List Char := "Counter incremented to: ".data

/-- The `Counter decremented to: ` prefix. -/
def decrPre : List Char := "Counter decremented to: ".data

/-- Literals of `Added (\d+) to counter\. New value: (\d+)`. -/
def addedLit1 : List Char := "Added ".data

/-- Second literal of the added-pattern regex. -/
def addedLit2 : List Char := " to counter. New value: ".data

/-- Literals of `Payment of (\d+) lamports received\. Counter incremented to: (\d+)`. -/
def payLit1 : List Char := "Payment of ".data

/-- Second literal of the payment-pattern regex. -/
def payLit2 : List Char := " lamports received. Counter incremented to: ".data

/-- `msg == "Counter initialized"` branch. -/
def tryInitialized (msg : List Char) (counter : PubKey) : Option CounterAction :=
  if msg = "Counter initialized".data then
    some { actionType := "CounterInitializedEvent", counter := counter, newValue := some 0 }
  else none

/-- `Counter incremented to: N` branch: old value is `N - 1` in uint64. -/
def tryIncremented (msg : List Char) (counter : PubKey) : Option CounterAction :=
  if hasPre incrPre msg then
    match extractNumber msg incrPre with
    | some n => some { actionType := "CounterIncrementedEvent", counter := counter,
                       oldValue := some (u64sub n 1), newValue := some n }
    | none => none
  else none

/-- `Counter decremented to: N` branch: old value is `N + 1` in uint64. -/
def tryDecremented (msg : List Char) (counter : PubKey) : Option CounterAction :=
  if hasPre decrPre msg then
    match extractNumber msg decrPre with
    | some n => some { actionType := "CounterDecrementedEvent", counter := counter,
                       oldValue := some (u64add n 1), newValue := some n }
    | none => none
  else none

/-- `Added A to counter. New value: V` branch: parse errors of the
captures are discarded, old value is `V - A` in uint64. -/
def tryAdded (msg : List Char) (counter : PubKey) : Option CounterAction :=
  if hasPre addedLit1 msg && containsSeq "to counter".data msg then
    match findTwoNum addedLit1 addedLit2 msg with
    | some (d1, d2) =>
      let added := parseUintWrap d1
      let newVal := parseUintWrap d2
      some { actionType := "CounterAddedEvent", counter := counter,
             oldValue := some (u64sub newVal added), addedValue := some added,
             newValue := some newVal }
    | none => none
  else none

/-- `msg == "Counter reset"` branch. -/
def tryReset (msg : List Char) (counter : PubKey) : Option CounterAction :=
  if msg = "Counter reset".data then
    some { actionType := "CounterResetEvent", counter := counter,
           oldValue := none, newValue := some 0 }
  else none

/-- `Payment of P lamports received. Counter incremented to: N` branch:
payer and fee collector only when a second / third account exists. -/
def tryPayment (msg : List Char) (accounts : List PubKey) (counter : PubKey) :
    Option CounterAction :=
  if hasPre payLit1 msg && containsSeq "lamports received".data msg then
    match findTwoNum payLit1 payLit2 msg with
    | some (d1, d2) =>
      some { actionType := "CounterPaymentReceivedEvent", counter := counter,
             payment := some (parseUintWrap d1), newValue := some (parseUintWrap d2),
             payer := accounts.get? 1, feeCollector := accounts.get? 2 }
    | none => none
  else none

/-- The body of `parseLogMessage` after the message is isolated: the
sequence of pattern checks, falling through on failure as the Go code
does (the guards are mutually exclusive, and a guarded branch whose
number extraction or regex fails falls through to the next check). -/
def parseMsgChars (msg : List Char) (accounts : List PubKey) : Option CounterAction :=
  let counter := accounts.headD zeroPubKey
  (tryInitialized msg counter) <|> (tryIncremented msg counter) <|>
    (tryDecremented msg counter) <|> (tryAdded msg counter) <|>
    (tryReset msg counter) <|> (tryPayment msg accounts counter)

/-- `parseLogMessage`: require `Program log: `, take the piece after its
first occurrence (Go `strings.Split(log, msgPrefix)[1]`), trim it, and
run the pattern checks. -/
def parseLogChars (log : List Char) (accounts : List PubKey) : Option CounterAction :=
  if containsSeq msgLogPre log then
    match (splitSeq msgLogPre log).get? 1 with
    | some piece => parseMsgChars (trimChars piece) accounts
    | none => none
  else none

/-- `parseLogMessage` on a Go string. -/
def parseLogMessage (log : String) (accounts : List PubKey) : Option CounterAction :=
  parseLogChars log.data accounts

/-- `ParseLogs`: keep the lines containing `Program log:` (no trailing
space) and collect the non-nil actions. -/
def parseLogs (logs : List String) (accounts : List PubKey) : List CounterAction :=
  logs.filterMap (fun log =>
    if containsSeq "Program log:".data log.data then parseLogMessage log accounts else none)

/-- A concrete public key for test vectors. -/
def pkA : PubKey := List.replicate 32 1

/-- A second concrete public key. -/
def pkB : PubKey := List.replicate 32 2

/-- A third concrete public key. -/
def pkC : PubKey := List.replicate 32 3

set_option maxRecDepth 8192

/-! ## Helper lemmas for symbolic evaluation of the parser -/


/-- Matching a literal against itself followed by anything succeeds. -/
theorem matchLit_append_self (p r : List Char) : matchLit p (p ++ r) = some r := by
  induction p with
  | nil => rfl
  | cons c cs ih => simp [matchLit, ih]

/-- A successful literal match decomposes the input. -/
theorem matchLit_some_decomp (p : List Char) :
    ∀ l r, matchLit p l = some r → l = p ++ r := by
  induction p with
  | nil => intro l r h; simpa [matchLit] using h
  | cons c cs ih =>
    intro l r h
    cases l with
    | nil => simp [matchLit] at h
    | cons x xs =>
      simp only [matchLit] at h
      by_cases hx : x = c
      · subst hx
        simp only [if_pos rfl] at h
        simpa using ih xs r h
      · simp [if_neg hx] at h

/-- A found occurrence decomposes the input. -/
theorem findOcc_some_decomp (sep : List Char) :
    ∀ l bef aft, findOcc sep l = some (bef, aft) → l = bef ++ (sep ++ aft) := by
  intro l
  induction l with
  | nil =>
    intro bef aft h
    cases hsep : sep with
    | nil =>
      rw [hsep] at h
      simp [findOcc, matchLit] at h
      simp [h.1, h.2.symm, hsep]
    | cons c cs => rw [hsep] at h; simp [findOcc, matchLit] at h
  | cons x xs ih =>
    intro bef aft h
    rw [findOcc] at h
    cases hm : matchLit sep (x :: xs) with
    | some r =>
      rw [hm] at h
      simp only [Option.some.injEq, Prod.mk.injEq] at h
      rw [← h.1, ← h.2]
      simpa using matchLit_some_decomp sep _ _ hm
    | none =>
      rw [hm] at h
      cases hf : findOcc sep xs with
      | none => rw [hf] at h; simp at h
      | some p =>
        rw [hf] at h
        simp only [Option.map, Option.some.injEq, Prod.mk.injEq] at h
        have hd := ih p.1 p.2 (by rw [hf])
        rw [← h.1, ← h.2]
        simp [hd]

/-- `findOcc` at an exact leading occurrence. -/
theorem findOcc_self_append (sep m : List Char) (hsep : sep ≠ []) :
    findOcc sep (sep ++ m) = some ([], m) := by
  cases sep with
  | nil => exact absurd rfl hsep
  | cons c cs =>
    have hml : matchLit (c :: cs) (c :: (cs ++ m)) = some m := by
      simpa using matchLit_append_self (c :: cs) m
    simp [List.cons_append, findOcc, hml]

/-- A list that decomposes around `sep` contains it. -/
theorem containsSeq_of_decomp (sep l a b : List Char) (h : l = a ++ (sep ++ b)) :
    containsSeq sep l = true := by
  subst h
  induction a with
  | nil =>
    simp only [List.nil_append]
    cases hsep : sep with
    | nil =>
      cases b with
      | nil => simp [containsSeq, findOcc, matchLit]
      | cons y ys => simp [containsSeq, findOcc, matchLit]
    | cons c cs =>
      rw [← hsep, containsSeq, findOcc_self_append sep b (by rw [hsep]; simp)]
      rfl
  | cons x xs ih =>
    rw [List.cons_append, containsSeq, findOcc]
    cases hm : matchLit sep (x :: (xs ++ (sep ++ b))) with
    | some r => simp
    | none =>
      rw [containsSeq] at ih
      cases hf : findOcc sep (xs ++ (sep ++ b)) with
      | none => rw [hf] at ih; simp at ih
      | some p => simp [hf]

/-- A literal match makes the pattern's characters members of the input. -/
theorem mem_of_matchLit (p l r : List Char) (h : matchLit p l = some r) :
    ∀ x ∈ p, x ∈ l := by
  intro x hx
  rw [matchLit_some_decomp p l r h]
  simp [hx]

/-- No occurrence when some character of `sep` is absent from the input. -/
theorem containsSeq_eq_false (sep : List Char) (c : Char) (hc : c ∈ sep) :
    ∀ l, (∀ x ∈ l, x ≠ c) → containsSeq sep l = false := by
  intro l
  induction l with
  | nil =>
    intro _
    cases hsep : sep with
    | nil => rw [hsep] at hc; simp at hc
    | cons y ys => simp [containsSeq, findOcc, matchLit, hsep]
  | cons x xs ih =>
    intro h
    rw [containsSeq, findOcc]
    cases hm : matchLit sep (x :: xs) with
    | some r =>
      have := mem_of_matchLit sep _ r hm c hc
      exact absurd rfl (h c this)
    | none =>
      have hxs := ih (fun y hy => h y (List.mem_cons_of_mem x hy))
      rw [containsSeq] at hxs
      cases hf : findOcc sep xs with
      | none => simp
      | some p => rw [hf] at hxs; simp at hxs




/-- Unfolding `splitSeqF` when no occurrence is found. -/
theorem splitSeqF_succ_none (sep : List Char) (n : Nat) (l : List Char)
    (h : findOcc sep l = none) : splitSeqF sep (n + 1) l = [l] := by
  rw [splitSeqF, h]

/-- Unfolding `splitSeqF` at a found occurrence. -/
theorem splitSeqF_succ_some (sep : List Char) (n : Nat) (l bef aft : List Char)
    (h : findOcc sep l = some (bef, aft)) :
    splitSeqF sep (n + 1) l = bef :: splitSeqF sep n aft := by
  rw [splitSeqF, h]

/-- With an occurrence found, the input strictly shrinks past it. -/
theorem findOcc_some_length (sep l bef aft : List Char) (hsep : sep ≠ [])
    (h : findOcc sep l = some (bef, aft)) : aft.length < l.length := by
  have hd := findOcc_some_decomp sep l bef aft h
  have hlen : sep.length ≠ 0 := fun h0 => hsep (List.length_eq_zero.mp h0)
  rw [hd]
  simp only [List.length_append]
  omega

/-- `splitSeqF` is fuel-independent once the fuel exceeds the input length. -/
theorem splitSeqF_fuel (sep : List Char) (hsep : sep ≠ []) :
    ∀ fuel l, l.length < fuel → splitSeqF sep fuel l = splitSeq sep l := by
  intro fuel
  induction fuel using Nat.strong_induction_on with
  | _ fuel ih =>
    intro l hl
    cases fuel with
    | zero => omega
    | succ n =>
      rw [splitSeq]
      cases hf : findOcc sep l with
      | none =>
        cases hl2 : l.length + 1 with
        | zero => omega
        | succ k =>
          rw [splitSeqF_succ_none sep n l hf, splitSeqF_succ_none sep k l hf]
      | some p =>
        obtain ⟨bef, aft⟩ := p
        have hlen := findOcc_some_length sep l bef aft hsep hf
        cases hl2 : l.length + 1 with
        | zero => omega
        | succ k =>
          rw [splitSeqF_succ_some sep n l bef aft hf, splitSeqF_succ_some sep k l bef aft hf]
          rw [ih n (by omega) aft (by omega), ih k (by omega) aft (by omega)]

/-- `strings.Split` of `sep ++ m` on `sep`: an empty first piece, then the
split of the remainder. -/
theorem splitSeq_self_append (sep m : List Char) (hsep : sep ≠ []) :
    splitSeq sep (sep ++ m) = [] :: splitSeq sep m := by
  rw [splitSeq]
  cases hl : (sep ++ m).length + 1 with
  | zero => simp at hl
  | succ k =>
    rw [splitSeqF_succ_some sep k (sep ++ m) [] m (findOcc_self_append sep m hsep)]
    have hlen : sep.length ≠ 0 := fun h0 => hsep (List.length_eq_zero.mp h0)
    have hk : m.length < k := by
      simp only [List.length_append] at hl
      omega
    rw [splitSeqF_fuel sep hsep k m hk]

/-- `strings.Split` without an occurrence: the input unchanged. -/
theorem splitSeq_no_occ (sep l : List Char) (h : containsSeq sep l = false) :
    splitSeq sep l = [l] := by
  rw [containsSeq] at h
  cases hf : findOcc sep l with
  | none => rw [splitSeq, splitSeqF_succ_none sep l.length l hf]
  | some p => rw [hf] at h; simp at h

/-- `dropWhile` keeps a list whose head fails the predicate. -/
theorem dropWhile_cons_false (p : Char → Bool) (c : Char) (cs : List Char)
    (h : p c = false) : (c :: cs).dropWhile p = c :: cs := by
  simp [List.dropWhile_cons, h]

/-- `dropWhile` is the identity when the predicate fails everywhere. -/
theorem dropWhile_all_false (p : Char → Bool) :
    ∀ l : List Char, (∀ x ∈ l, p x = false) → l.dropWhile p = l := by
  intro l
  cases l with
  | nil => intro _; rfl
  | cons c cs => intro h; exact dropWhile_cons_false p c cs (h c (by simp))

/-- `TrimSpace` is the identity on all-non-space input. -/
theorem trimChars_of_all (l : List Char) (h : ∀ x ∈ l, isSp x = false) :
    trimChars l = l := by
  rw [trimChars, dropWhile_all_false isSp l h,
      dropWhile_all_false isSp l.reverse (fun x hx => h x (List.mem_reverse.mp hx)),
      List.reverse_reverse]

/-- `TrimSpace` is the identity when the ends are non-space (the middle
may contain spaces). -/
theorem trimChars_sandwich (c : Char) (mid ds : List Char) (hc : isSp c = false)
    (hds : ds ≠ []) (hall : ∀ x ∈ ds, isSp x = false) :
    trimChars (c :: (mid ++ ds)) = c :: (mid ++ ds) := by
  rw [trimChars, dropWhile_cons_false isSp c (mid ++ ds) hc]
  cases hrev : ds.reverse with
  | nil => exact absurd (by simpa using congrArg List.reverse hrev) hds
  | cons d t =>
    have hd : d ∈ ds := by
      rw [← List.mem_reverse, hrev]; simp
    have hrw : (c :: (mid ++ ds)).reverse = d :: (t ++ (mid.reverse ++ [c])) := by
      rw [List.reverse_cons, List.reverse_append, hrev]
      simp
    rw [hrw, dropWhile_cons_false isSp d _ (hall d hd), ← hrw, List.reverse_reverse]

/-- Digits are not spaces. -/
theorem isSp_eq_false_of_digit (c : Char) (h : c.isDigit = true) : isSp c = false := by
  have h0 : c ≠ ' ' := fun he => absurd (he ▸ h) (by decide)
  have h1 : c ≠ '\t' := fun he => absurd (he ▸ h) (by decide)
  have h2 : c ≠ '\n' := fun he => absurd (he ▸ h) (by decide)
  have h3 : c ≠ '\r' := fun he => absurd (he ▸ h) (by decide)
  rw [isSp]
  simp [beq_eq_false_iff_ne, h0, h1, h2, h3]




/-- The greedy digit run over digits followed by a non-digit: exactly the
digits. -/
theorem takeDigits_concat (ds : List Char) (c : Char) (rest : List Char)
    (hds : ∀ x ∈ ds, x.isDigit = true) (hc : c.isDigit = false) :
    takeDigits (ds ++ c :: rest) = ds := by
  induction ds with
  | nil => simp [takeDigits, List.takeWhile_cons, hc]
  | cons d t ih =>
    rw [takeDigits, List.cons_append, List.takeWhile_cons, hds d (by simp)]
    rw [takeDigits] at ih
    simp [ih (fun x hx => hds x (by simp [hx]))]

/-- What follows the digit run in the same shape. -/
theorem dropDigits_concat (ds : List Char) (c : Char) (rest : List Char)
    (hds : ∀ x ∈ ds, x.isDigit = true) (hc : c.isDigit = false) :
    dropDigits (ds ++ c :: rest) = c :: rest := by
  induction ds with
  | nil => simp [dropDigits, List.dropWhile_cons, hc]
  | cons d t ih =>
    rw [dropDigits, List.cons_append, List.dropWhile_cons, hds d (by simp)]
    rw [dropDigits] at ih
    simp [ih (fun x hx => hds x (by simp [hx]))]

/-- The digit run over an all-digit list is the whole list. -/
theorem takeDigits_all (ds : List Char) (hds : ∀ x ∈ ds, x.isDigit = true) :
    takeDigits ds = ds := by
  induction ds with
  | nil => rfl
  | cons d t ih =>
    rw [takeDigits, List.takeWhile_cons, hds d (by simp)]
    rw [takeDigits] at ih
    simp [ih (fun x hx => hds x (by simp [hx]))]

/-- `ParseUint` succeeds on a digit string whose value is in range. -/
theorem parseUint64_digits (ds : List Char) (hne : ds ≠ [])
    (hds : ∀ x ∈ ds, x.isDigit = true) (hv : digitsVal ds < U64) :
    parseUint64 ds = some (digitsVal ds) := by
  rw [parseUint64]
  have h1 : ds.isEmpty = false := by
    cases ds with
    | nil => exact absurd rfl hne
    | cons d t => rfl
  have h2 : ds.all Char.isDigit = true := List.all_eq_true.mpr hds
  rw [h1, h2]
  simp [hv]

/-- `ParseUint` fails on a digit string whose value overflows uint64. -/
theorem parseUint64_overflow (ds : List Char) (hne : ds ≠ [])
    (hds : ∀ x ∈ ds, x.isDigit = true) (hv : ¬ digitsVal ds < U64) :
    parseUint64 ds = none := by
  rw [parseUint64]
  have h1 : ds.isEmpty = false := by
    cases ds with
    | nil => exact absurd rfl hne
    | cons d t => rfl
  have h2 : ds.all Char.isDigit = true := List.all_eq_true.mpr hds
  rw [h1, h2]
  simp [hv]

/-- Splitting a log of the form `Program log: ` ++ m, when m does not
itself contain the prefix, isolates m: `parseLogMessage` becomes the
pattern checks on the trimmed m. -/
theorem parseLog_split (m : List Char) (accounts : List PubKey)
    (hnoc : containsSeq msgLogPre m = false) :
    parseLogChars (msgLogPre ++ m) accounts = parseMsgChars (trimChars m) accounts := by
  have hsep : msgLogPre ≠ [] := by decide
  have h1 : containsSeq msgLogPre (msgLogPre ++ m) = true :=
    containsSeq_of_decomp msgLogPre _ [] m (by simp)
  rw [parseLogChars, if_pos h1, splitSeq_self_append msgLogPre m hsep,
      splitSeq_no_occ msgLogPre m hnoc]
  rfl

/-- A message without the character `g` cannot contain `Program log: `. -/
theorem no_g_no_logpre (m : List Char) (h : ∀ x ∈ m, x ≠ 'g') :
    containsSeq msgLogPre m = false :=
  containsSeq_eq_false msgLogPre 'g' (by decide) m h

/-- Digits are not `g`. -/
theorem digit_ne_g (c : Char) (h : c.isDigit = true) : c ≠ 'g' :=
  fun he => absurd (he ▸ h) (by decide)




/-- Digit lists are all non-space (helper for trimming). -/
theorem all_nonsp_of_digits (ds : List Char) (h : ∀ x ∈ ds, x.isDigit = true) :
    ∀ x ∈ ds, isSp x = false :=
  fun x hx => isSp_eq_false_of_digit x (h x hx)

/-- The incremented branch on `Counter incremented to: ` ++ digits. -/
theorem tryIncremented_digits (ds : List Char) (counter : PubKey)
    (h1 : ds ≠ []) (h2 : ∀ x ∈ ds, x.isDigit = true) (h3 : digitsVal ds < U64) :
    tryIncremented (incrPre ++ ds) counter =
      some { actionType := "CounterIncrementedEvent", counter := counter,
             oldValue := some (u64sub (digitsVal ds) 1),
             newValue := some (digitsVal ds) } := by
  have hpre : hasPre incrPre (incrPre ++ ds) = true := by
    rw [hasPre, matchLit_append_self]; rfl
  have hext : extractNumber (incrPre ++ ds) incrPre = some (digitsVal ds) := by
    rw [extractNumber, matchLit_append_self, trimChars_of_all ds (all_nonsp_of_digits ds h2),
        parseUint64_digits ds h1 h2 h3]
  rw [tryIncremented, if_pos hpre, hext]

/-- The incremented line evaluated through the whole pattern chain. -/
theorem parseMsg_incremented (ds : List Char) (accounts : List PubKey)
    (h1 : ds ≠ []) (h2 : ∀ x ∈ ds, x.isDigit = true) (h3 : digitsVal ds < U64) :
    parseMsgChars (incrPre ++ ds) accounts =
      some { actionType := "CounterIncrementedEvent",
             counter := accounts.headD zeroPubKey,
             oldValue := some (u64sub (digitsVal ds) 1),
             newValue := some (digitsVal ds) } := by
  have hInit : tryInitialized (incrPre ++ ds) (accounts.headD zeroPubKey) = none := rfl
  rw [parseMsgChars, hInit,
      tryIncremented_digits ds (accounts.headD zeroPubKey) h1 h2 h3]
  rfl

/-- The full C6-style evaluation at the char level. -/
theorem parseLog_incremented (ds : List Char) (accounts : List PubKey)
    (h1 : ds ≠ []) (h2 : ∀ x ∈ ds, x.isDigit = true) (h3 : digitsVal ds < U64) :
    parseLogChars (msgLogPre ++ (incrPre ++ ds)) accounts =
      some { actionType := "CounterIncrementedEvent",
             counter := accounts.headD zeroPubKey,
             oldValue := some (u64sub (digitsVal ds) 1),
             newValue := some (digitsVal ds) } := by
  have hng : ∀ x ∈ incrPre ++ ds, x ≠ 'g' := by
    intro x hx
    rcases List.mem_append.mp hx with hx1 | hx2
    · exact (by decide : ∀ y ∈ incrPre, y ≠ 'g') x hx1
    · exact digit_ne_g x (h2 x hx2)
  rw [parseLog_split (incrPre ++ ds) accounts (no_g_no_logpre _ hng)]
  have htrim : trimChars (incrPre ++ ds) = incrPre ++ ds := by
    have : incrPre ++ ds = 'C' :: ("ounter incremented to: ".data ++ ds) := rfl
    rw [this, trimChars_sandwich 'C' _ ds (by decide) h1 (all_nonsp_of_digits ds h2)]
  rw [htrim, parseMsg_incremented ds accounts h1 h2 h3]




/-- `lit1 (\d+) lit2 (\d+)` matches at the head of the exact shape. -/
theorem tryTwoNumAt_exact (lit1 lit2 dsA dsV : List Char) (c2 : Char) (l2t : List Char)
    (hlit2 : lit2 = c2 :: l2t) (hc2 : c2.isDigit = false)
    (hA : dsA ≠ []) (hAd : ∀ x ∈ dsA, x.isDigit = true)
    (hV : dsV ≠ []) (hVd : ∀ x ∈ dsV, x.isDigit = true) :
    tryTwoNumAt lit1 lit2 (lit1 ++ (dsA ++ (lit2 ++ dsV))) = some (dsA, dsV) := by
  have e1 : dsA ++ (lit2 ++ dsV) = dsA ++ (c2 :: (l2t ++ dsV)) := by
    rw [hlit2]; rfl
  have hAe : dsA.isEmpty = false := by
    cases dsA with
    | nil => exact absurd rfl hA
    | cons d t => rfl
  have hVe : dsV.isEmpty = false := by
    cases dsV with
    | nil => exact absurd rfl hV
    | cons d t => rfl
  have e2 : c2 :: (l2t ++ dsV) = lit2 ++ dsV := by rw [hlit2]; rfl
  simp only [tryTwoNumAt, matchLit_append_self, e1,
    takeDigits_concat dsA c2 (l2t ++ dsV) hAd hc2,
    dropDigits_concat dsA c2 (l2t ++ dsV) hAd hc2,
    hAe, e2, matchLit_append_self, takeDigits_all dsV hVd, hVe]
  rfl

/-- The leftmost regex match when the whole message is the exact shape. -/
theorem findTwoNum_exact (c1 : Char) (l1t lit2 dsA dsV : List Char) (c2 : Char)
    (l2t : List Char)
    (hlit2 : lit2 = c2 :: l2t) (hc2 : c2.isDigit = false)
    (hA : dsA ≠ []) (hAd : ∀ x ∈ dsA, x.isDigit = true)
    (hV : dsV ≠ []) (hVd : ∀ x ∈ dsV, x.isDigit = true) :
    findTwoNum (c1 :: l1t) lit2 ((c1 :: l1t) ++ (dsA ++ (lit2 ++ dsV))) = some (dsA, dsV) := by
  have h := tryTwoNumAt_exact (c1 :: l1t) lit2 dsA dsV c2 l2t hlit2 hc2 hA hAd hV hVd
  rw [List.cons_append] at h ⊢
  rw [findTwoNum, h]

/-- The added branch on the exact `Added A to counter. New value: V` shape. -/
theorem tryAdded_eval (dsA dsV : List Char) (counter : PubKey)
    (hA : dsA ≠ []) (hAd : ∀ x ∈ dsA, x.isDigit = true)
    (hV : dsV ≠ []) (hVd : ∀ x ∈ dsV, x.isDigit = true) :
    tryAdded (addedLit1 ++ (dsA ++ (addedLit2 ++ dsV))) counter =
      some { actionType := "CounterAddedEvent", counter := counter,
             oldValue := some (u64sub (parseUintWrap dsV) (parseUintWrap dsA)),
             addedValue := some (parseUintWrap dsA),
             newValue := some (parseUintWrap dsV) } := by
  have hpre : hasPre addedLit1 (addedLit1 ++ (dsA ++ (addedLit2 ++ dsV))) = true := by
    rw [hasPre, matchLit_append_self]; rfl
  have hdec : addedLit1 ++ (dsA ++ (addedLit2 ++ dsV)) =
      (addedLit1 ++ (dsA ++ [' '])) ++
        ("to counter".data ++ (". New value: ".data ++ dsV)) := by
    have e : addedLit2 = [' '] ++ ("to counter".data ++ ". New value: ".data) := rfl
    rw [e]; simp
  have hcont := containsSeq_of_decomp "to counter".data _ _ _ hdec
  have hfind : findTwoNum addedLit1 addedLit2 (addedLit1 ++ (dsA ++ (addedLit2 ++ dsV))) =
      some (dsA, dsV) := by
    have e1 : addedLit1 = 'A' :: "dded ".data := rfl
    rw [e1]
    exact findTwoNum_exact 'A' "dded ".data addedLit2 dsA dsV ' '
      "to counter. New value: ".data rfl (by decide) hA hAd hV hVd
  rw [tryAdded, if_pos (by rw [hpre, hcont]; rfl), hfind]

/-- The payment branch on the exact shape. -/
theorem tryPayment_eval (dsP dsN : List Char) (accounts : List PubKey) (counter : PubKey)
    (hP : dsP ≠ []) (hPd : ∀ x ∈ dsP, x.isDigit = true)
    (hN : dsN ≠ []) (hNd : ∀ x ∈ dsN, x.isDigit = true) :
    tryPayment (payLit1 ++ (dsP ++ (payLit2 ++ dsN))) accounts counter =
      some { actionType := "CounterPaymentReceivedEvent", counter := counter,
             payment := some (parseUintWrap dsP),
             newValue := some (parseUintWrap dsN),
             payer := accounts.get? 1, feeCollector := accounts.get? 2 } := by
  have hpre : hasPre payLit1 (payLit1 ++ (dsP ++ (payLit2 ++ dsN))) = true := by
    rw [hasPre, matchLit_append_self]; rfl
  have hdec : payLit1 ++ (dsP ++ (payLit2 ++ dsN)) =
      (payLit1 ++ (dsP ++ [' '])) ++
        ("lamports received".data ++ (". Counter incremented to: ".data ++ dsN)) := by
    have e : payLit2 =
        [' '] ++ ("lamports received".data ++ ". Counter incremented to: ".data) := rfl
    rw [e]; simp
  have hcont := containsSeq_of_decomp "lamports received".data _ _ _ hdec
  have hfind : findTwoNum payLit1 payLit2 (payLit1 ++ (dsP ++ (payLit2 ++ dsN))) =
      some (dsP, dsN) := by
    have e1 : payLit1 = 'P' :: "ayment of ".data := rfl
    rw [e1]
    exact findTwoNum_exact 'P' "ayment of ".data payLit2 dsP dsN ' '
      "lamports received. Counter incremented to: ".data rfl (by decide) hP hPd hN hNd
  rw [tryPayment, if_pos (by rw [hpre, hcont]; rfl), hfind]




/-- The added line through the whole pattern chain. -/
theorem parseMsg_added (dsA dsV : List Char) (accounts : List PubKey)
    (hA : dsA ≠ []) (hAd : ∀ x ∈ dsA, x.isDigit = true)
    (hV : dsV ≠ []) (hVd : ∀ x ∈ dsV, x.isDigit = true) :
    parseMsgChars (addedLit1 ++ (dsA ++ (addedLit2 ++ dsV))) accounts =
      some { actionType := "CounterAddedEvent",
             counter := accounts.headD zeroPubKey,
             oldValue := some (u64sub (parseUintWrap dsV) (parseUintWrap dsA)),
             addedValue := some (parseUintWrap dsA),
             newValue := some (parseUintWrap dsV) } := by
  rw [parseMsgChars,
      tryAdded_eval dsA dsV (accounts.headD zeroPubKey) hA hAd hV hVd]
  rfl

/-- The payment line through the whole pattern chain. -/
theorem parseMsg_payment (dsP dsN : List Char) (accounts : List PubKey)
    (hP : dsP ≠ []) (hPd : ∀ x ∈ dsP, x.isDigit = true)
    (hN : dsN ≠ []) (hNd : ∀ x ∈ dsN, x.isDigit = true) :
    parseMsgChars (payLit1 ++ (dsP ++ (payLit2 ++ dsN))) accounts =
      some { actionType := "CounterPaymentReceivedEvent",
             counter := accounts.headD zeroPubKey,
             payment := some (parseUintWrap dsP),
             newValue := some (parseUintWrap dsN),
             payer := accounts.get? 1, feeCollector := accounts.get? 2 } := by
  rw [parseMsgChars,
      tryPayment_eval dsP dsN accounts (accounts.headD zeroPubKey) hP hPd hN hNd]
  rfl

/-- The added line at the log level. -/
theorem parseLog_added (dsA dsV : List Char) (accounts : List PubKey)
    (hA : dsA ≠ []) (hAd : ∀ x ∈ dsA, x.isDigit = true)
    (hV : dsV ≠ []) (hVd : ∀ x ∈ dsV, x.isDigit = true) :
    parseLogChars (msgLogPre ++ (addedLit1 ++ (dsA ++ (addedLit2 ++ dsV)))) accounts =
      some { actionType := "CounterAddedEvent",
             counter := accounts.headD zeroPubKey,
             oldValue := some (u64sub (parseUintWrap dsV) (parseUintWrap dsA)),
             addedValue := some (parseUintWrap dsA),
             newValue := some (parseUintWrap dsV) } := by
  have hng : ∀ x ∈ addedLit1 ++ (dsA ++ (addedLit2 ++ dsV)), x ≠ 'g' := by
    intro x hx
    rcases List.mem_append.mp hx with hx1 | hx2
    · exact (by decide : ∀ y ∈ addedLit1, y ≠ 'g') x hx1
    · rcases List.mem_append.mp hx2 with hx3 | hx4
      · exact digit_ne_g x (hAd x hx3)
      · rcases List.mem_append.mp hx4 with hx5 | hx6
        · exact (by decide : ∀ y ∈ addedLit2, y ≠ 'g') x hx5
        · exact digit_ne_g x (hVd x hx6)
  rw [parseLog_split _ accounts (no_g_no_logpre _ hng)]
  have hmsg : addedLit1 ++ (dsA ++ (addedLit2 ++ dsV)) =
      'A' :: (("dded ".data ++ (dsA ++ addedLit2)) ++ dsV) := by
    simp [addedLit1]
  rw [hmsg, trimChars_sandwich 'A' _ dsV (by decide) hV (all_nonsp_of_digits dsV hVd),
      ← hmsg, parseMsg_added dsA dsV accounts hA hAd hV hVd]

/-- The payment line at the log level. -/
theorem parseLog_payment (dsP dsN : List Char) (accounts : List PubKey)
    (hP : dsP ≠ []) (hPd : ∀ x ∈ dsP, x.isDigit = true)
    (hN : dsN ≠ []) (hNd : ∀ x ∈ dsN, x.isDigit = true) :
    parseLogChars (msgLogPre ++ (payLit1 ++ (dsP ++ (payLit2 ++ dsN)))) accounts =
      some { actionType := "CounterPaymentReceivedEvent",
             counter := accounts.headD zeroPubKey,
             payment := some (parseUintWrap dsP),
             newValue := some (parseUintWrap dsN),
             payer := accounts.get? 1, feeCollector := accounts.get? 2 } := by
  have hng : ∀ x ∈ payLit1 ++ (dsP ++ (payLit2 ++ dsN)), x ≠ 'g' := by
    intro x hx
    rcases List.mem_append.mp hx with hx1 | hx2
    · exact (by decide : ∀ y ∈ payLit1, y ≠ 'g') x hx1
    · rcases List.mem_append.mp hx2 with hx3 | hx4
      · exact digit_ne_g x (hPd x hx3)
      · rcases List.mem_append.mp hx4 with hx5 | hx6
        · exact (by decide : ∀ y ∈ payLit2, y ≠ 'g') x hx5
        · exact digit_ne_g x (hNd x hx6)
  rw [parseLog_split _ accounts (no_g_no_logpre _ hng)]
  have hmsg : payLit1 ++ (dsP ++ (payLit2 ++ dsN)) =
      'P' :: (("ayment of ".data ++ (dsP ++ payLit2)) ++ dsN) := by
    simp [payLit1]
  rw [hmsg, trimChars_sandwich 'P' _ dsN (by decide) hN (all_nonsp_of_digits dsN hNd),
      ← hmsg, parseMsg_payment dsP dsN accounts hP hPd hN hNd]

/-- The incremented branch when the number overflows uint64: nil. -/
theorem tryIncremented_overflow (ds : List Char) (counter : PubKey)
    (h1 : ds ≠ []) (h2 : ∀ x ∈ ds, x.isDigit = true) (h3 : ¬ digitsVal ds < U64) :
    tryIncremented (incrPre ++ ds) counter = none := by
  have hpre : hasPre incrPre (incrPre ++ ds) = true := by
    rw [hasPre, matchLit_append_self]; rfl
  have hext : extractNumber (incrPre ++ ds) incrPre = none := by
    rw [extractNumber, matchLit_append_self, trimChars_of_all ds (all_nonsp_of_digits ds h2),
        parseUint64_overflow ds h1 h2 h3]
  rw [tryIncremented, if_pos hpre, hext]

/-- An incremented line whose number overflows is skipped entirely. -/
theorem parseLog_incremented_overflow (ds : List Char) (accounts : List PubKey)
    (h1 : ds ≠ []) (h2 : ∀ x ∈ ds, x.isDigit = true) (h3 : ¬ digitsVal ds < U64) :
    parseLogChars (msgLogPre ++ (incrPre ++ ds)) accounts = none := by
  have hng : ∀ x ∈ incrPre ++ ds, x ≠ 'g' := by
    intro x hx
    rcases List.mem_append.mp hx with hx1 | hx2
    · exact (by decide : ∀ y ∈ incrPre, y ≠ 'g') x hx1
    · exact digit_ne_g x (h2 x hx2)
  rw [parseLog_split (incrPre ++ ds) accounts (no_g_no_logpre _ hng)]
  have htrim : trimChars (incrPre ++ ds) = incrPre ++ ds := by
    have e : incrPre ++ ds = 'C' :: ("ounter incremented to: ".data ++ ds) := rfl
    rw [e, trimChars_sandwich 'C' _ ds (by decide) h1 (all_nonsp_of_digits ds h2)]
  rw [htrim, parseMsgChars, tryIncremented_overflow ds (accounts.headD zeroPubKey) h1 h2 h3]
  rfl


/-- The discriminator of every known event name is 8 bytes long and its
base64 looks up the right event type in the map. -/
theorem disc_facts : ∀ name ∈ knownEventNames,
    (discriminatorBytes name).length = 8 ∧
    makeDiscriminatorMap.lookup (base64Encode (discriminatorBytes name)) = some name := by
  decide

/-- The unimplemented names are known, and their dispatch finds no decoder. -/
theorem notimpl_facts : ∀ n ∈ notImplementedEventNames,
    n ∈ knownEventNames ∧ (dispatchDecoder n).isNone = true := by
  decide

/-- The implemented names are known. -/
theorem impl_known : ∀ n ∈ implementedEventNames, n ∈ knownEventNames := by
  decide

/-- `DecodeEvent` on a frame split as 8 discriminator bytes plus payload. -/
theorem decodeEvent_append (d p : Bytes) (hd : d.length = 8) :
    decodeEvent (d ++ p) =
      (match makeDiscriminatorMap.lookup (base64Encode d) with
       | none => .unknownDisc (base64Encode d)
       | some t =>
         match dispatchDecoder t with
         | none => .notImplemented t
         | some dec =>
           match dec p with
           | some e => .ok t e
           | none => .malformed t) := by
  rw [decodeEvent, if_neg (by simp [List.length_append, hd])]
  rw [List.take_left' hd, List.drop_left' hd]



/-- The decremented branch when the number overflows uint64: nil. -/
theorem tryDecremented_overflow (ds : List Char) (counter : PubKey)
    (h1 : ds ≠ []) (h2 : ∀ x ∈ ds, x.isDigit = true) (h3 : ¬ digitsVal ds < U64) :
    tryDecremented (decrPre ++ ds) counter = none := by
  have hpre : hasPre decrPre (decrPre ++ ds) = true := by
    rw [hasPre, matchLit_append_self]; rfl
  have hext : extractNumber (decrPre ++ ds) decrPre = none := by
    rw [extractNumber, matchLit_append_self, trimChars_of_all ds (all_nonsp_of_digits ds h2),
        parseUint64_overflow ds h1 h2 h3]
  rw [tryDecremented, if_pos hpre, hext]

/-- A decremented line whose number overflows is skipped entirely. -/
theorem parseLog_decremented_overflow (ds : List Char) (accounts : List PubKey)
    (h1 : ds ≠ []) (h2 : ∀ x ∈ ds, x.isDigit = true) (h3 : ¬ digitsVal ds < U64) :
    parseLogChars (msgLogPre ++ (decrPre ++ ds)) accounts = none := by
  have hng : ∀ x ∈ decrPre ++ ds, x ≠ 'g' := by
    intro x hx
    rcases List.mem_append.mp hx with hx1 | hx2
    · exact (by decide : ∀ y ∈ decrPre, y ≠ 'g') x hx1
    · exact digit_ne_g x (h2 x hx2)
  rw [parseLog_split (decrPre ++ ds) accounts (no_g_no_logpre _ hng)]
  have htrim : trimChars (decrPre ++ ds) = decrPre ++ ds := by
    have e : decrPre ++ ds = 'C' :: ("ounter decremented to: ".data ++ ds) := rfl
    rw [e, trimChars_sandwich 'C' _ ds (by decide) h1 (all_nonsp_of_digits ds h2)]
  rw [htrim, parseMsgChars, tryDecremented_overflow ds (accounts.headD zeroPubKey) h1 h2 h3]
  rfl

/-- Every pattern of the parser starts with `C`, `A` or `P`: a message
whose first character is none of these falls through every check. -/
theorem parseMsg_head_unmatched (c : Char) (t : List Char) (accounts : List PubKey)
    (hC : c ≠ 'C') (hA : c ≠ 'A') (hP : c ≠ 'P') :
    parseMsgChars (c :: t) accounts = none := by
  have hInit : tryInitialized (c :: t) (accounts.headD zeroPubKey) = none := by
    rw [tryInitialized, if_neg]
    intro h
    have e : "Counter initialized".data = 'C' :: "ounter initialized".data := rfl
    rw [e] at h
    exact hC ((List.cons.injEq _ _ _ _).mp h).1
  have hpreI : hasPre incrPre (c :: t) = false := by
    have e : incrPre = 'C' :: "ounter incremented to: ".data := rfl
    rw [e, hasPre]
    simp [matchLit, hC]
  have hIncr : tryIncremented (c :: t) (accounts.headD zeroPubKey) = none := by
    simp [tryIncremented, hpreI]
  have hpreD : hasPre decrPre (c :: t) = false := by
    have e : decrPre = 'C' :: "ounter decremented to: ".data := rfl
    rw [e, hasPre]
    simp [matchLit, hC]
  have hDecr : tryDecremented (c :: t) (accounts.headD zeroPubKey) = none := by
    simp [tryDecremented, hpreD]
  have hpreA : hasPre addedLit1 (c :: t) = false := by
    have e : addedLit1 = 'A' :: "dded ".data := rfl
    rw [e, hasPre]
    simp [matchLit, hA]
  have hAdded : tryAdded (c :: t) (accounts.headD zeroPubKey) = none := by
    simp [tryAdded, hpreA]
  have hReset : tryReset (c :: t) (accounts.headD zeroPubKey) = none := by
    rw [tryReset, if_neg]
    intro h
    have e : "Counter reset".data = 'C' :: "ounter reset".data := rfl
    rw [e] at h
    exact hC ((List.cons.injEq _ _ _ _).mp h).1
  have hpreP : hasPre payLit1 (c :: t) = false := by
    have e : payLit1 = 'P' :: "ayment of ".data := rfl
    rw [e, hasPre]
    simp [matchLit, hP]
  have hPay : tryPayment (c :: t) accounts (accounts.headD zeroPubKey) = none := by
    simp [tryPayment, hpreP]
  rw [parseMsgChars, hInit, hIncr, hDecr, hAdded, hReset, hPay]
  rfl

/-- `TrimSpace` only removes characters: membership is preserved. -/
theorem mem_of_trimChars (l : List Char) (x : Char) (hx : x ∈ trimChars l) : x ∈ l := by
  rw [trimChars, List.mem_reverse] at hx
  have h2 := (List.dropWhile_sublist (l := (l.dropWhile isSp).reverse) (p := isSp)).subset hx
  rw [List.mem_reverse] at h2
  exact (List.dropWhile_sublist (l := l) (p := isSp)).subset h2

/-- A log line whose message contains none of `C`, `A`, `P` (so no
pattern can start anywhere after trimming) and no `g` (so the log prefix
cannot recur) is ignored silently. -/
theorem parseLog_unmatched (m : List Char) (accounts : List PubKey)
    (h : ∀ x ∈ m, x ≠ 'g' ∧ x ≠ 'C' ∧ x ≠ 'A' ∧ x ≠ 'P') :
    parseLogChars (msgLogPre ++ m) accounts = none := by
  rw [parseLog_split m accounts (no_g_no_logpre m (fun x hx => (h x hx).1))]
  cases htr : trimChars m with
  | nil => rfl
  | cons c t =>
    have hc : c ∈ m := mem_of_trimChars m c (htr ▸ List.mem_cons_self c t)
    exact parseMsg_head_unmatched c t accounts (h c hc).2.1 (h c hc).2.2.1 (h c hc).2.2.2


/-! ## Claim theorems -/

/-- C6 (counterexample): at N = 0 the parser emits `old_value =
2^64 - 1` (Go uint64 wraparound), not the mathematical / clamped `N - 1`. -/
theorem counterIncremented_zero_counterexample :
    parseLogMessage "Program log: Counter incremented to: 0" [pkA] =
      some { actionType := "CounterIncrementedEvent", counter := pkA,
             oldValue := some 18446744073709551615, newValue := some 0 } ∧
    (18446744073709551615 : Nat) ≠ 0 - 1 := by
  decide

/-- C6 (amended): for every log line `Program log: Counter incremented
to: N` with N a digit string whose value parses as uint64, and every
non-empty account list, the parser emits exactly one CounterIncremented
event with counter = accounts[0], new_value = N and old_value = N - 1
computed in wrapping uint64 arithmetic (so N = 0 gives 2^64 - 1). -/
theorem counterIncremented_parse (s : String) (pk : PubKey) (accs : List PubKey)
    (h1 : s.data ≠ []) (h2 : ∀ x ∈ s.data, x.isDigit = true)
    (h3 : digitsVal s.data < U64) :
    parseLogMessage ("Program log: Counter incremented to: " ++ s) (pk :: accs) =
      some { actionType := "CounterIncrementedEvent", counter := pk,
             oldValue := some (u64sub (digitsVal s.data) 1),
             newValue := some (digitsVal s.data) } ∧
    parseLogs ["Program log: Counter incremented to: " ++ s] (pk :: accs) =
      [{ actionType := "CounterIncrementedEvent", counter := pk,
         oldValue := some (u64sub (digitsVal s.data) 1),
         newValue := some (digitsVal s.data) }] := by
  have e : "Program log: Counter incremented to: ".data = msgLogPre ++ incrPre := rfl
  have hdata : ("Program log: Counter incremented to: " ++ s).data =
      msgLogPre ++ (incrPre ++ s.data) := by
    rw [String.data_append, e, List.append_assoc]
  have hmain : parseLogChars (msgLogPre ++ (incrPre ++ s.data)) (pk :: accs) =
      some { actionType := "CounterIncrementedEvent", counter := pk,
             oldValue := some (u64sub (digitsVal s.data) 1),
             newValue := some (digitsVal s.data) } :=
    parseLog_incremented s.data (pk :: accs) h1 h2 h3
  refine ⟨by rw [parseLogMessage, hdata]; exact hmain, ?_⟩
  have hcont : containsSeq "Program log:".data
      ("Program log: Counter incremented to: " ++ s).data = true := by
    refine containsSeq_of_decomp _ _ [] ([' '] ++ (incrPre ++ s.data)) ?_
    rw [hdata]
    rfl
  rw [parseLogs, List.filterMap]
  rw [if_pos hcont, parseLogMessage, hdata, hmain]
  rfl

/-- C6 (witness): the incremented line with N = 42 and a single account. -/
theorem counterIncremented_parse_witness :
    parseLogMessage "Program log: Counter incremented to: 42" [pkA] =
      some { actionType := "CounterIncrementedEvent", counter := pkA,
             oldValue := some 41, newValue := some 42 } :=
  (counterIncremented_parse "42" pkA [] (by decide) (by decide) (by decide)).1

/-- C7 (confirmed): for every payment log line with in-range P and N and
an account list headed by the counter account, the parser emits one
CounterPaymentReceived action with payment = P, new count = N,
counter = accounts[0], payer = accounts[1] when it exists, and
fee_collector = accounts[2] when it exists (absent otherwise). -/
theorem counterPayment_parse (sP sN : String) (pk : PubKey) (accs : List PubKey)
    (hP1 : sP.data ≠ []) (hP2 : ∀ x ∈ sP.data, x.isDigit = true)
    (hP3 : digitsVal sP.data < U64)
    (hN1 : sN.data ≠ []) (hN2 : ∀ x ∈ sN.data, x.isDigit = true)
    (hN3 : digitsVal sN.data < U64) :
    parseLogMessage
        ("Program log: Payment of " ++ sP ++ " lamports received. Counter incremented to: " ++ sN)
        (pk :: accs) =
      some { actionType := "CounterPaymentReceivedEvent", counter := pk,
             payment := some (digitsVal sP.data),
             newValue := some (digitsVal sN.data),
             payer := (pk :: accs).get? 1,
             feeCollector := (pk :: accs).get? 2 } := by
  have e1 : "Program log: Payment of ".data = msgLogPre ++ payLit1 := rfl
  have e2 : " lamports received. Counter incremented to: ".data = payLit2 := rfl
  have hdata :
      ("Program log: Payment of " ++ sP ++ " lamports received. Counter incremented to: " ++ sN).data =
        msgLogPre ++ (payLit1 ++ (sP.data ++ (payLit2 ++ sN.data))) := by
    rw [String.data_append, String.data_append, String.data_append, e1, e2]
    simp
  have hwrapP : parseUintWrap sP.data = digitsVal sP.data := by
    rw [parseUintWrap, if_pos hP3]
  have hwrapN : parseUintWrap sN.data = digitsVal sN.data := by
    rw [parseUintWrap, if_pos hN3]
  have hmain := parseLog_payment sP.data sN.data (pk :: accs) hP1 hP2 hN1 hN2
  rw [hwrapP, hwrapN] at hmain
  rw [parseLogMessage, hdata]
  exact hmain

/-- C7 (witness): the literal scenario from the spec, with three accounts. -/
theorem counterPayment_parse_witness :
    parseLogMessage
        "Program log: Payment of 5000000 lamports received. Counter incremented to: 7"
        [pkA, pkB, pkC] =
      some { actionType := "CounterPaymentReceivedEvent", counter := pkA,
             payment := some 5000000, newValue := some 7,
             payer := some pkB, feeCollector := some pkC } :=
  counterPayment_parse "5000000" "7" pkA [pkB, pkC]
    (by decide) (by decide) (by decide) (by decide) (by decide) (by decide)

/-- C8 (counterexample): `Added 5 to counter. New value: 3` reconstructs
old_value as 2^64 - 2 (uint64 wraparound), not zero. -/
theorem counterAdded_underflow_counterexample :
    parseLogMessage "Program log: Added 5 to counter. New value: 3" [pkA] =
      some { actionType := "CounterAddedEvent", counter := pkA,
             oldValue := some 18446744073709551614, addedValue := some 5,
             newValue := some 3 } ∧
    (18446744073709551614 : Nat) ≠ 0 := by
  decide

/-- C8 (amended): on an `Added A to counter. New value: V` line with
in-range A and V and A > V, the reconstructed old value wraps modulo
2^64 — the parser yields `2^64 - (A - V)`, not zero. -/
theorem counterAdded_underflow_wraps (sA sV : String) (pk : PubKey) (accs : List PubKey)
    (hA1 : sA.data ≠ []) (hA2 : ∀ x ∈ sA.data, x.isDigit = true)
    (hA3 : digitsVal sA.data < U64)
    (hV1 : sV.data ≠ []) (hV2 : ∀ x ∈ sV.data, x.isDigit = true)
    (hV3 : digitsVal sV.data < U64)
    (hgt : digitsVal sV.data < digitsVal sA.data) :
    parseLogMessage ("Program log: Added " ++ sA ++ " to counter. New value: " ++ sV)
        (pk :: accs) =
      some { actionType := "CounterAddedEvent", counter := pk,
             oldValue := some (U64 - (digitsVal sA.data - digitsVal sV.data)),
             addedValue := some (digitsVal sA.data),
             newValue := some (digitsVal sV.data) } := by
  have e1 : "Program log: Added ".data = msgLogPre ++ addedLit1 := rfl
  have e2 : " to counter. New value: ".data = addedLit2 := rfl
  have hdata :
      ("Program log: Added " ++ sA ++ " to counter. New value: " ++ sV).data =
        msgLogPre ++ (addedLit1 ++ (sA.data ++ (addedLit2 ++ sV.data))) := by
    rw [String.data_append, String.data_append, String.data_append, e1, e2]
    simp
  have hwrapA : parseUintWrap sA.data = digitsVal sA.data := by
    rw [parseUintWrap, if_pos hA3]
  have hwrapV : parseUintWrap sV.data = digitsVal sV.data := by
    rw [parseUintWrap, if_pos hV3]
  have harith : u64sub (digitsVal sV.data) (digitsVal sA.data) =
      U64 - (digitsVal sA.data - digitsVal sV.data) := by
    rw [u64sub]
    have hlt : U64 + digitsVal sV.data - digitsVal sA.data < U64 := by omega
    rw [Nat.mod_eq_of_lt hlt]
    omega
  have hmain := parseLog_added sA.data sV.data (pk :: accs) hA1 hA2 hV1 hV2
  rw [hwrapA, hwrapV, harith] at hmain
  rw [parseLogMessage, hdata]
  exact hmain

/-- C8 (witness): A = 5, V = 3 gives old value 2^64 - 2. -/
theorem counterAdded_underflow_wraps_witness :
    parseLogMessage "Program log: Added 5 to counter. New value: 3" [pkB] =
      some { actionType := "CounterAddedEvent", counter := pkB,
             oldValue := some 18446744073709551614, addedValue := some 5,
             newValue := some 3 } :=
  counterAdded_underflow_wraps "5" "3" pkB []
    (by decide) (by decide) (by decide) (by decide) (by decide) (by decide) (by decide)

/-- C9 (counterexample): an `Added` line whose first capture overflows
uint64 still emits an event (ParseUint's range error is discarded,
yielding MaxUint64), and a line with an empty account list still emits
an event with the zero public key as counter — neither is skipped. -/
theorem parser_skip_counterexample :
    parseLogMessage "Program log: Added 18446744073709551616 to counter. New value: 3" [pkA] =
      some { actionType := "CounterAddedEvent", counter := pkA,
             oldValue := some 4, addedValue := some 18446744073709551615,
             newValue := some 3 } ∧
    parseLogMessage "Program log: Counter initialized" [] =
      some { actionType := "CounterInitializedEvent", counter := zeroPubKey,
             newValue := some 0 } := by
  decide

/-- C9 (amended): (1) in both prefix patterns (incremented and
decremented) an unparseable (overflowing) captured number skips the
line; (2) every line whose message contains none of the
pattern-starting characters C, A, P (and no g) is ignored silently;
(3) in both regex patterns (Added and Payment) a capture that fails to
parse is replaced by MaxUint64 and the event is still emitted, for any
account list; (4) a missing accounts[0] never skips — shown for the
whole incremented family, for both regex-pattern families (whose
conjuncts quantify over all account lists, [] included), and for the
initialized line: the counter field is then the zero public key. -/
theorem parser_skip_behavior :
    (∀ (s : String) (accounts : List PubKey), s.data ≠ [] →
      (∀ x ∈ s.data, x.isDigit = true) → ¬ digitsVal s.data < U64 →
      parseLogMessage ("Program log: Counter incremented to: " ++ s) accounts = none) ∧
    (∀ (s : String) (accounts : List PubKey), s.data ≠ [] →
      (∀ x ∈ s.data, x.isDigit = true) → ¬ digitsVal s.data < U64 →
      parseLogMessage ("Program log: Counter decremented to: " ++ s) accounts = none) ∧
    (∀ (s : String) (accounts : List PubKey),
      (∀ x ∈ s.data, x ≠ 'g' ∧ x ≠ 'C' ∧ x ≠ 'A' ∧ x ≠ 'P') →
      parseLogMessage ("Program log: " ++ s) accounts = none) ∧
    (∀ (sA sV : String) (accounts : List PubKey), sA.data ≠ [] →
      (∀ x ∈ sA.data, x.isDigit = true) → ¬ digitsVal sA.data < U64 →
      sV.data ≠ [] → (∀ x ∈ sV.data, x.isDigit = true) → digitsVal sV.data < U64 →
      parseLogMessage ("Program log: Added " ++ sA ++ " to counter. New value: " ++ sV)
          accounts =
        some { actionType := "CounterAddedEvent", counter := accounts.headD zeroPubKey,
               oldValue := some (u64sub (digitsVal sV.data) (U64 - 1)),
               addedValue := some (U64 - 1),
               newValue := some (digitsVal sV.data) }) ∧
    (∀ (sP sN : String) (accounts : List PubKey), sP.data ≠ [] →
      (∀ x ∈ sP.data, x.isDigit = true) → ¬ digitsVal sP.data < U64 →
      sN.data ≠ [] → (∀ x ∈ sN.data, x.isDigit = true) → digitsVal sN.data < U64 →
      parseLogMessage
          ("Program log: Payment of " ++ sP ++
            " lamports received. Counter incremented to: " ++ sN) accounts =
        some { actionType := "CounterPaymentReceivedEvent",
               counter := accounts.headD zeroPubKey,
               payment := some (U64 - 1),
               newValue := some (digitsVal sN.data),
               payer := accounts.get? 1, feeCollector := accounts.get? 2 }) ∧
    (∀ (s : String), s.data ≠ [] → (∀ x ∈ s.data, x.isDigit = true) →
      digitsVal s.data < U64 →
      parseLogMessage ("Program log: Counter incremented to: " ++ s) [] =
        some { actionType := "CounterIncrementedEvent", counter := zeroPubKey,
               oldValue := some (u64sub (digitsVal s.data) 1),
               newValue := some (digitsVal s.data) }) ∧
    parseLogMessage "Program log: Counter initialized" [] =
      some { actionType := "CounterInitializedEvent", counter := zeroPubKey,
             newValue := some 0 } := by
  refine ⟨?_, ?_, ?_, ?_, ?_, ?_, by decide⟩
  · intro s accounts h1 h2 h3
    have e : "Program log: Counter incremented to: ".data = msgLogPre ++ incrPre := rfl
    have hdata : ("Program log: Counter incremented to: " ++ s).data =
        msgLogPre ++ (incrPre ++ s.data) := by
      rw [String.data_append, e, List.append_assoc]
    rw [parseLogMessage, hdata]
    exact parseLog_incremented_overflow s.data accounts h1 h2 h3
  · intro s accounts h1 h2 h3
    have e : "Program log: Counter decremented to: ".data = msgLogPre ++ decrPre := rfl
    have hdata : ("Program log: Counter decremented to: " ++ s).data =
        msgLogPre ++ (decrPre ++ s.data) := by
      rw [String.data_append, e, List.append_assoc]
    rw [parseLogMessage, hdata]
    exact parseLog_decremented_overflow s.data accounts h1 h2 h3
  · intro s accounts h
    have hdata : ("Program log: " ++ s).data = msgLogPre ++ s.data := by
      rw [String.data_append]
      rfl
    rw [parseLogMessage, hdata]
    exact parseLog_unmatched s.data accounts h
  · intro sA sV accounts hA1 hA2 hA3 hV1 hV2 hV3
    have e1 : "Program log: Added ".data = msgLogPre ++ addedLit1 := rfl
    have e2 : " to counter. New value: ".data = addedLit2 := rfl
    have hdata :
        ("Program log: Added " ++ sA ++ " to counter. New value: " ++ sV).data =
          msgLogPre ++ (addedLit1 ++ (sA.data ++ (addedLit2 ++ sV.data))) := by
      rw [String.data_append, String.data_append, String.data_append, e1, e2]
      simp
    have hwrapA : parseUintWrap sA.data = U64 - 1 := by
      rw [parseUintWrap, if_neg hA3]
    have hwrapV : parseUintWrap sV.data = digitsVal sV.data := by
      rw [parseUintWrap, if_pos hV3]
    have hmain := parseLog_added sA.data sV.data accounts hA1 hA2 hV1 hV2
    rw [hwrapA, hwrapV] at hmain
    rw [parseLogMessage, hdata]
    exact hmain
  · intro sP sN accounts hP1 hP2 hP3 hN1 hN2 hN3
    have e1 : "Program log: Payment of ".data = msgLogPre ++ payLit1 := rfl
    have e2 : " lamports received. Counter incremented to: ".data = payLit2 := rfl
    have hdata :
        ("Program log: Payment of " ++ sP ++
          " lamports received. Counter incremented to: " ++ sN).data =
          msgLogPre ++ (payLit1 ++ (sP.data ++ (payLit2 ++ sN.data))) := by
      rw [String.data_append, String.data_append, String.data_append, e1, e2]
      simp
    have hwrapP : parseUintWrap sP.data = U64 - 1 := by
      rw [parseUintWrap, if_neg hP3]
    have hwrapN : parseUintWrap sN.data = digitsVal sN.data := by
      rw [parseUintWrap, if_pos hN3]
    have hmain := parseLog_payment sP.data sN.data accounts hP1 hP2 hN1 hN2
    rw [hwrapP, hwrapN] at hmain
    rw [parseLogMessage, hdata]
    exact hmain
  · intro s h1 h2 h3
    have e : "Program log: Counter incremented to: ".data = msgLogPre ++ incrPre := rfl
    have hdata : ("Program log: Counter incremented to: " ++ s).data =
        msgLogPre ++ (incrPre ++ s.data) := by
      rw [String.data_append, e, List.append_assoc]
    rw [parseLogMessage, hdata]
    exact parseLog_incremented s.data [] h1 h2 h3

/-- C9 (witness): the overflow skip for both prefix patterns, an
unmatched line ignored, both regex patterns emitting on an overflowing
capture, and zero-account lines emitting with the zero key. -/
theorem parser_skip_behavior_witness :
    parseLogMessage "Program log: Counter incremented to: 18446744073709551616" [pkA] =
      none ∧
    parseLogMessage "Program log: Counter decremented to: 18446744073709551616" [pkA] =
      none ∧
    parseLogMessage "Program log: hello world" [pkA] = none ∧
    parseLogMessage "Program log: Added 18446744073709551616 to counter. New value: 7"
        [pkC] =
      some { actionType := "CounterAddedEvent", counter := pkC,
             oldValue := some 8, addedValue := some 18446744073709551615,
             newValue := some 7 } ∧
    parseLogMessage
        "Program log: Payment of 18446744073709551616 lamports received. Counter incremented to: 7"
        [pkA, pkB] =
      some { actionType := "CounterPaymentReceivedEvent", counter := pkA,
             payment := some 18446744073709551615, newValue := some 7,
             payer := some pkB, feeCollector := none } ∧
    parseLogMessage "Program log: Counter incremented to: 42" [] =
      some { actionType := "CounterIncrementedEvent", counter := zeroPubKey,
             oldValue := some 41, newValue := some 42 } :=
  ⟨parser_skip_behavior.1 "18446744073709551616" [pkA]
     (by decide) (by decide) (by decide),
   parser_skip_behavior.2.1 "18446744073709551616" [pkA]
     (by decide) (by decide) (by decide),
   parser_skip_behavior.2.2.1 "hello world" [pkA] (by decide),
   parser_skip_behavior.2.2.2.1 "18446744073709551616" "7" [pkC]
     (by decide) (by decide) (by decide) (by decide) (by decide) (by decide),
   parser_skip_behavior.2.2.2.2.1 "18446744073709551616" "7" [pkA, pkB]
     (by decide) (by decide) (by decide) (by decide) (by decide) (by decide),
   parser_skip_behavior.2.2.2.2.2.1 "42" (by decide) (by decide) (by decide)⟩

/-- C1 (counterexample): the created indexes contain no compound unique
index on (signature, event_type, ordinal) — the only unique index is on
signature alone — and no index mentions program_id or ordinal at all. -/
theorem createIndexes_claim_counterexample :
    (createIndexModels.filter (fun m => m.unique)).map (fun m => m.keys) =
      [[("signature", 1)]] ∧
    ∀ m ∈ createIndexModels, ∀ k ∈ m.keys, k.1 ≠ "program_id" ∧ k.1 ≠ "ordinal" := by
  decide

/-- C1 (amended): `CreateIndexes` establishes a uniqueness index on
`signature` alone together with secondary indexes on `event_type`,
`block_time` descending and `slot` descending (no `program_id` index);
under the signature-uniqueness constraint no two persisted records share
a signature, hence none share (signature, event_type). -/
theorem createIndexes_unique_on_signature :
    createIndexModels =
      [{ keys := [("signature", 1)], unique := true },
       { keys := [("event_type", 1)], unique := false },
       { keys := [("block_time", -1)], unique := false },
       { keys := [("slot", -1)], unique := false }] ∧
    ∀ recs : List StoredRecord, signatureUnique recs →
      recs.Pairwise (fun r s => ¬(r.signature = s.signature ∧ r.eventType = s.eventType)) := by
  refine ⟨rfl, fun recs h => h.imp ?_⟩
  intro a b hne hc
  exact hne hc.1

/-- C1 (witness): two records with distinct signatures satisfy the
pairwise consequence. -/
theorem createIndexes_unique_on_signature_witness :
    signatureUnique [⟨"sigA", "TokensMintedEvent", 1⟩, ⟨"sigB", "TokensMintedEvent", 2⟩] ∧
    List.Pairwise (fun r s => ¬(r.signature = s.signature ∧ r.eventType = s.eventType))
      ([⟨"sigA", "TokensMintedEvent", 1⟩, ⟨"sigB", "TokensMintedEvent", 2⟩] :
        List StoredRecord) :=
  ⟨by rw [signatureUnique]; decide,
   createIndexes_unique_on_signature.2 _ (by rw [signatureUnique]; decide)⟩

/-- C2 (counterexample): a duplicate-key failure of the insert is not
absorbed — `SaveEvent` returns a wrapped error, not success. -/
theorem saveEvent_duplicate_counterexample :
    saveEvent (.error .duplicateKey) = some "insert event: duplicate key error" ∧
    saveEvent (.error .duplicateKey) ≠ none := by
  decide

/-- C2 (amended): `SaveEvent` surfaces every insert error to the caller,
duplicate-key violations included, wrapped as `insert event: …`; only a
successful insert returns without error. -/
theorem saveEvent_surfaces_all_errors :
    saveEvent (.ok ()) = none ∧
    ∀ e : MongoError, saveEvent (.error e) = some ("insert event: " ++ mongoErrMsg e) :=
  ⟨rfl, fun _ => rfl⟩

/-- C3 (confirmed): for every known event type name the codec's
discriminator is the base64 of the first 8 bytes of
SHA-256("event:" ++ name), the construction-time map sends it to the
corresponding event type, and the TokensMintedEvent discriminator bytes
equal the independently computed SHA-256 prefix. -/
theorem discriminator_map_correct :
    (∀ name ∈ knownEventNames,
      eventDiscriminator name =
        base64Encode ((sha256 (strBytes ("event:" ++ name))).take 8) ∧
      makeDiscriminatorMap.lookup (eventDiscriminator name) = some name) ∧
    (sha256 (strBytes "event:TokensMintedEvent")).take 8 =
      [197, 87, 251, 124, 83, 45, 57, 62] := by
  refine ⟨fun name hname => ⟨rfl, (disc_facts name hname).2⟩, by decide⟩

/-- C3 (witness): the map resolves the TokensMintedEvent discriminator. -/
theorem discriminator_map_correct_witness :
    eventDiscriminator "TokensMintedEvent" =
      base64Encode ((sha256 (strBytes ("event:" ++ "TokensMintedEvent"))).take 8) ∧
    makeDiscriminatorMap.lookup (eventDiscriminator "TokensMintedEvent") =
      some "TokensMintedEvent" :=
  discriminator_map_correct.1 "TokensMintedEvent" (by decide)

/-- C4 (counterexample): a frame carrying the NftListedEvent
discriminator and an 80-byte payload (the spec's payload width for that
type) yields no typed event value: the switch has no decoder for it. -/
theorem decodeEvent_unimplemented_counterexample :
    decodeEvent (discriminatorBytes "NftListedEvent" ++ List.replicate 80 0) =
      .notImplemented "NftListedEvent" := by
  decide

/-- C4 (amended): frames shorter than 8 bytes and frames with unknown
discriminators yield no event value; frames for the seven implemented
types with a payload their decoder accepts yield a typed event value;
frames for the other 13 known types always fall to the
`decoder not implemented` error, whatever their payload. -/
theorem decodeEvent_characterization :
    (∀ data : Bytes, data.length < 8 → decodeEvent data = .tooShort) ∧
    (∀ data : Bytes, 8 ≤ data.length →
      makeDiscriminatorMap.lookup (base64Encode (data.take 8)) = none →
      decodeEvent data = .unknownDisc (base64Encode (data.take 8))) ∧
    (∀ name ∈ implementedEventNames, ∀ dec, dispatchDecoder name = some dec →
      ∀ payload e, dec payload = some e →
        decodeEvent (discriminatorBytes name ++ payload) = .ok name e) ∧
    (∀ name ∈ notImplementedEventNames, ∀ payload : Bytes,
      decodeEvent (discriminatorBytes name ++ payload) = .notImplemented name) := by
  refine ⟨?_, ?_, ?_, ?_⟩
  · intro data h
    rw [decodeEvent, if_pos h]
  · intro data h hl
    rw [decodeEvent, if_neg (by omega)]
    simp only [hl]
  · intro name hname dec hdec payload e he
    have hfacts := disc_facts name (impl_known name hname)
    rw [decodeEvent_append _ _ hfacts.1]
    simp only [hfacts.2, hdec, he]
  · intro name hname payload
    have hk := notimpl_facts name hname
    have hfacts := disc_facts name hk.1
    have hnone : dispatchDecoder name = none := Option.isNone_iff_eq_none.mp hk.2
    rw [decodeEvent_append _ _ hfacts.1]
    simp only [hfacts.2, hnone]

/-- C4 (witness): a too-short frame, a well-formed TokensMintedEvent
frame, and an NftSoldEvent frame through the characterization. -/
theorem decodeEvent_characterization_witness :
    decodeEvent [1, 2, 3] = .tooShort ∧
    decodeEvent (discriminatorBytes "TokensMintedEvent" ++
        (List.replicate 32 1 ++ List.replicate 32 2 ++
         [232, 3, 0, 0, 0, 0, 0, 0] ++ [0, 241, 83, 101, 0, 0, 0, 0])) =
      .ok "TokensMintedEvent"
        (.tokensMinted (List.replicate 32 1) (List.replicate 32 2) 1000 1700000000) ∧
    decodeEvent (discriminatorBytes "NftSoldEvent" ++ [0]) = .notImplemented "NftSoldEvent" :=
  ⟨decodeEvent_characterization.1 [1, 2, 3] (by decide),
   decodeEvent_characterization.2.2.1 "TokensMintedEvent" (by decide)
     decodeTokensMinted rfl _ _ (by decide),
   decodeEvent_characterization.2.2.2 "NftSoldEvent" (by decide) [0]⟩

/-- C5 (code bug): `GetSignaturesForAddress` builds the options carrying
limit, before and until, but issues the RPC call without them — the
request that goes out has no options at all. -/
theorem getSignaturesForAddress_ignores_opts :
    (∀ (a : String) (l : Int) (b u : Option String),
      (getSignaturesForAddressRequest a l b u).opts = none) ∧
    (∀ (l : Int) (b u : Option String),
      buildSigOpts l b u = { limit := some l, beforeSig := b, untilSig := u }) ∧
    getSignaturesForAddressRequest "program" 5 none (some "lastSig") =
      { address := "program", opts := none } :=
  ⟨fun _ _ _ _ => rfl, fun _ _ _ => rfl, rfl⟩

/-- C10 (confirmed): every event type outside the 13 handled by the
dispatch switch reaches the default branch: no store write, nil error. -/
theorem processEvent_unhandled_dropped :
    ∀ eventType, eventType ∉ handledEventTypes →
      ∀ payloadTag, processEvent eventType payloadTag = .droppedNil := by
  intro et h tag
  simp only [handledEventTypes, List.mem_cons, List.not_mem_nil, or_false, not_or] at h
  obtain ⟨h1, h2, h3, h4, h5, h6, h7, h8, h9, h10, h11, h12, h13⟩ := h
  simp [processEvent, h1, h2, h3, h4, h5, h6, h7, h8, h9, h10, h11, h12, h13]

/-- C10 (witness): DelegateApprovedEvent and NftListedEvent are dropped
with success. -/
theorem processEvent_unhandled_dropped_witness :
    processEvent "DelegateApprovedEvent" "DelegateApprovedEvent" = .droppedNil ∧
    processEvent "NftListedEvent" "anything" = .droppedNil :=
  ⟨processEvent_unhandled_dropped "DelegateApprovedEvent" (by decide) _,
   processEvent_unhandled_dropped "NftListedEvent" (by decide) _⟩

end SolanaIndexer
